import Mathlib

/-
Verification development for the argparse C extension (src/generic/argparse.c).

The code is a Tcl command implemented in C.  We shallowly embed it in Lean:

* Tcl values are modelled by the rose tree `TV` (a plain string or a list of
  values).  Tcl identifies a string with its list parse; the model keeps the
  structural form and converts with `TV.render` / `TV.asList` where the C code
  calls `Tcl_GetString` / `Tcl_ListObjGetElements`.  `TV.asList` of a plain
  string splits on blanks, which is the honest approximation of the Tcl list
  parser for the brace-free inputs the claims use.
* Tcl dicts are association lists preserving insertion order, with
  `dictPut` replacing in place (as `Tcl_DictObjPut` does) and appending new
  keys at the end; iteration order is list order, as for Tcl dicts.
* The interpreter-level primitives the spec declares out of scope
  (`string is`, the `-validate` expression evaluator) are supplied as an
  `Oracles` record of boolean functions.
* Machine integers do not occur in the data path; counts are `Nat`.
* Errors abort the whole call, so every stage returns `Except Err _`; each
  `Err` constructor corresponds to one distinct error message produced by the
  C code.
-/

namespace Argparse

/-- Model of a Tcl value: either a plain string or a list of values. -/
inductive TV where
  | str : String → TV
  | lst : List TV → TV
deriving Repr, Inhabited

/-- Characterwise splitter (model of `SplitString` restricted to one
separator character, which is all the source uses): adjacent or trailing
separators produce empty elements. -/
def splitOnCharGo (c : Char) : List Char → List Char → List String
  | [], acc => [String.mk acc.reverse]
  | d :: rest, acc =>
    if d = c then String.mk acc.reverse :: splitOnCharGo c rest []
    else splitOnCharGo c rest (d :: acc)

/-- Splits a string on one separator character. -/
def splitOnChar (c : Char) (s : String) : List String :=
  splitOnCharGo c s.data []

/-- String prefix test on the underlying character lists. -/
def strPrefix (p s : String) : Bool :=
  p.data.isPrefixOf s.data

/-- Does the string start with a dash? -/
def startsWithDash (s : String) : Bool :=
  match s.data with
  | '-' :: _ => true
  | _ => false

/-- Characterwise lowercasing. -/
def lowerStr (s : String) : String :=
  String.mk (s.data.map Char.toLower)

/-- Removal of leading and trailing blanks. -/
def trimBlanks (s : String) : String :=
  String.mk (((s.data.dropWhile (fun c => c = ' ')).reverse.dropWhile
    (fun c => c = ' ')).reverse)

/-- Does the rendering of this value need braces inside a list rendering
(mirrors Tcl list quoting for the blank and empty cases)? -/
def needsBraces (s : String) : Bool :=
  s.data.isEmpty || s.data.any (fun c => c = ' ')

mutual
/-- Model of `Tcl_GetString` on a value: plain strings render as themselves,
lists render as blank-joined elements with braces around elements that
contain blanks (simplified Tcl quoting, exact on the brace-free inputs used
here). -/
def TV.render : TV → String
  | .str s => s
  | .lst l => String.intercalate " " (TV.renderElems l)

/-- Renders the elements of a list value, bracing where needed. -/
def TV.renderElems : List TV → List String
  | [] => []
  | t :: ts =>
    (let r := TV.render t
     if needsBraces r then "\x7b" ++ r ++ "\x7d" else r) :: TV.renderElems ts
end

/-- Model of `Tcl_ListObjGetElements` on a value: a list value gives its
elements, a plain string is split on blanks (simplified Tcl list parsing). -/
def TV.asList : TV → List TV
  | .lst l => l
  | .str s => ((splitOnChar ' ' s).filter (fun w => ! w.data.isEmpty)).map .str

/-- Elements of a value as rendered strings. -/
def TV.asStrList (t : TV) : List String :=
  t.asList.map TV.render

/-- Ordered dictionary lookup (model of `Tcl_DictObjGet`). -/
def dictGet {α : Type} (d : List (String × α)) (k : String) : Option α :=
  match d with
  | [] => none
  | (k0, v) :: rest => if k0 = k then some v else dictGet rest k

/-- Key membership test (model of `DictKeyExists`). -/
def dictHas {α : Type} (d : List (String × α)) (k : String) : Bool :=
  (dictGet d k).isSome

/-- Ordered dictionary update (model of `Tcl_DictObjPut`): replaces the value
in place when the key exists, otherwise appends the new pair at the end. -/
def dictPut {α : Type} (d : List (String × α)) (k : String) (v : α) :
    List (String × α) :=
  match d with
  | [] => [(k, v)]
  | (k0, v0) :: rest =>
    if k0 = k then (k0, v) :: rest else (k0, v0) :: dictPut rest k v

/-- Ordered dictionary removal (model of `Tcl_DictObjRemove`). -/
def dictRemove {α : Type} (d : List (String × α)) (k : String) :
    List (String × α) :=
  match d with
  | [] => []
  | (k0, v0) :: rest =>
    if k0 = k then rest else (k0, v0) :: dictRemove rest k

/-- Keys of a dictionary in iteration order (model of `DictKeys`). -/
def dictKeys {α : Type} (d : List (String × α)) : List String :=
  d.map Prod.fst

/-- Model of `DictLappendElem`: appends one element to the list stored at the
key, creating the list when the key is absent. -/
def dictLappendElem (d : List (String × TV)) (k : String) (v : TV) :
    List (String × TV) :=
  let existing := match dictGet d k with
    | none => []
    | some t => t.asList
  dictPut d k (.lst (existing ++ [v]))

/-- Model of `DictLappend`: appends all elements of a list value to the list
stored at the key. -/
def dictLappend (d : List (String × TV)) (k : String) (vs : TV) :
    List (String × TV) :=
  let existing := match dictGet d k with
    | none => []
    | some t => t.asList
  dictPut d k (.lst (existing ++ vs.asList))

/-- Model of `InList`: string membership in the rendered elements of a list
value. -/
def inListTV (item : String) (l : TV) : Bool :=
  l.asStrList.contains item

/-- Model of `ListRange`: the sublist from index `start` to index `stop`
inclusive, with the clamping the C function performs (`stop` clamped to the
last index, empty result when the range is empty or out of bounds). -/
def listRange {α : Type} (l : List α) (start : Int) (stop : Int) : List α :=
  let len : Int := l.length
  let start := if start ≥ len then len else start
  let stop := if stop ≥ len then len - 1 else stop
  if start > stop ∨ start ≥ len then []
  else (l.drop start.toNat).take (stop - start + 1).toNat

/-- Insertion of a string into a sorted list, for the model of `lsort`. -/
def insertSorted (x : String) : List String → List String
  | [] => [x]
  | y :: ys => if x ≤ y then x :: y :: ys else y :: insertSorted x ys

/-- Model of `EvalLsort`: default (codepoint-wise) string sorting. -/
def sortStrings : List String → List String
  | [] => []
  | x :: xs => insertSorted x (sortStrings xs)

/-- Word characters of the Tcl regular expression class `\w`. -/
def isWordChar (c : Char) : Bool :=
  c.isAlpha || c.isDigit || c = '_'

/-- Does the string match the regular expression `^\w[\w-]*$` used for element
names and alias words? -/
def isNameString (s : String) : Bool :=
  match s.data with
  | [] => false
  | c :: rest => isWordChar c && rest.all (fun d => isWordChar d || d = '-')

/-- Shorthand flag characters of the class `[=?!*^]`. -/
def isFlagChar (c : Char) : Bool :=
  c = '=' || c = '?' || c = '!' || c = '*' || c = '^'

/-- Attempts to read a shorthand tail as `(\w[\w-]*)([=?!*^]*)$`: a name
followed only by flag characters.  The two character classes are disjoint, so
the greedy split is the unique one. -/
def matchNameFlags (cs : List Char) : Option (String × String) :=
  match cs with
  | [] => none
  | c :: rest =>
    if isWordChar c then
      let nameTail := rest.takeWhile (fun d => isWordChar d || d = '-')
      let after := rest.drop nameTail.length
      if after.all isFlagChar then
        some (String.mk (c :: nameTail), String.mk after)
      else none
    else none

/-- Tries a list of bar positions in the given order; the first position whose
suffix reads as name plus flags wins. -/
def tryBarSplits (cs : List Char) : List Nat → Option (String × String × String)
  | [] => none
  | i :: rest =>
    match matchNameFlags (cs.drop (i + 1)) with
    | some (name, flags) => some (String.mk (cs.take i), name, flags)
    | none => tryBarSplits cs rest

/-- Splits a shorthand body at a bar so that the suffix reads as name plus
flags, preferring the rightmost bar (the greedy `(.*)\|` of the shorthand
regular expression); `none` when no split works. -/
def splitAliasPart (cs : List Char) : Option (String × String × String) :=
  let bars := ((List.range cs.length).filter
    (fun i => cs.getD i ' ' = '|')).reverse
  tryBarSplits cs bars

/-- Result of parsing one element-definition shorthand token. -/
structure Shorthand where
  isSwitch : Bool
  alias0 : Option String
  name : String
  flags : String
deriving Repr, DecidableEq

/-- Model of the shorthand regular expression
`^(?:(-)(?:(.*)\|)?)?(\w[\w-]*)([=?!*^]*)$` from `ParseElementDefinitions`:
an optional leading dash marks a switch; with the dash, an optional
bar-terminated alias part may precede the name; the name is word characters
(dashes allowed after the first) and is followed only by flag characters. -/
def parseShorthand (s : String) : Option Shorthand :=
  match s.data with
  | '-' :: rest =>
    (match splitAliasPart rest with
     | some (pre, name, flags) => some ⟨true, some pre, name, flags⟩
     | none =>
       match matchNameFlags rest with
       | some (name, flags) => some ⟨true, none, name, flags⟩
       | none => none)
  | cs =>
    match matchNameFlags cs with
    | some (name, flags) => some ⟨false, none, name, flags⟩
    | none => none

/-- Element option dictionary: attribute name (without dash) to value. -/
abbrev ODict := List (String × TV)

/-- Definition dictionary: element name to its option dictionary. -/
abbrev DDict := List (String × ODict)

/-- Fixed vocabulary of element-definition switches (`elementSwitches` in
argparse.h); element switches are resolved with `TCL_EXACT`, so only exact
occurrences count. -/
def elementSwitches : List String :=
  ["-alias", "-argument", "-boolean", "-catchall", "-default", "-enum",
   "-forbid", "-ignore", "-imply", "-keep", "-key", "-level", "-optional",
   "-parameter", "-pass", "-reciprocal", "-require", "-required",
   "-standalone", "-switch", "-upvar", "-validate", "-value", "-type",
   "-allow", "-help", "-errormsg", "-hsuppress"]

/-- Element switches that consume a following argument
(`elementSwitchesWithArgsNames`). -/
def elementSwitchesWithArgs : List String :=
  ["alias", "default", "enum", "forbid", "imply", "key", "pass", "require",
   "validate", "value", "type", "allow", "help", "errormsg"]

/-- Allowed values of `-type` (`allowedTypes`), matched exactly. -/
def allowedTypesList : List String :=
  ["alnum", "alpha", "ascii", "boolean", "control", "dict", "digit", "double",
   "graph", "integer", "list", "lower", "print", "punct", "space", "upper",
   "wideinteger", "wordchar", "xdigit"]

/-- Switch attributes that imply `-argument` on a switch
(`elementSwitchesImplyElementArg`). -/
def implyArgSwitches : List String :=
  ["optional", "required", "catchall", "upvar", "type"]

/-- Rows of the pairwise conflict table (`conflictSwitches` and
`conflictSwitchesRows`). -/
def conflictTable : List (String × List String) :=
  [("parameter", ["alias", "boolean", "value", "argument", "imply"]),
   ("ignore", ["key", "pass"]),
   ("required", ["boolean", "default"]),
   ("argument", ["boolean", "value"]),
   ("upvar", ["boolean", "inline", "catchall"]),
   ("boolean", ["default", "value"]),
   ("enum", ["validate"]),
   ("type", ["upvar", "boolean", "enum"]),
   ("allow", ["forbid"])]

/-- Required-companion pairs (`requireSwitchesPair0` and
`requireSwitchesPair1`). -/
def requirePairs : List (String × String) :=
  [("reciprocal", "require"), ("level", "upvar"), ("errormsg", "validate")]

/-- Disallowed attribute triples (`disallowedSwitchesRows`). -/
def disallowedTriples : List (String × String × String) :=
  [("switch", "optional", "catchall"), ("switch", "optional", "upvar"),
   ("switch", "optional", "default"), ("switch", "optional", "boolean"),
   ("switch", "optional", "type"), ("parameter", "optional", "required")]

/-- Constraint attributes whose references are verified
(`elemSwConstraints`). -/
def constraintNames : List String := ["require", "forbid", "allow"]

/-- Global option state, one field per `GlobalSwitchId`; value-bearing options
hold their argument.  The `-enum` and `-validate` arguments are dictionaries
in the source and are modelled structurally. -/
structure GlobalOpts where
  boolean : Bool := false
  enum : Option (List (String × TV)) := none
  equalarg : Bool := false
  exact : Bool := false
  inlineRes : Bool := false
  keep : Bool := false
  level : Option String := none
  long : Bool := false
  mixed : Bool := false
  normalize : Bool := false
  pass : Option String := none
  reciprocal : Bool := false
  template : Option String := none
  validate : Option (List (String × String)) := none
  help : Option String := none
  helplevel : Option String := none
  pfirst : Bool := false
  helpret : Bool := false
deriving Repr, Inhabited

/-- External interpreter primitives the spec declares out of scope: the
`-validate` expression evaluator (expression, element name, argument value)
and the `string is` type predicate (type name, value). -/
structure Oracles where
  evalBool : String → String → String → Bool
  stringIs : String → String → Bool

/-- Trivial oracle instantiation used for concrete scenarios that exercise
neither `-validate` expressions nor fallback types. -/
def trivialOracles : Oracles := ⟨fun _ _ _ => true, fun _ _ => true⟩

/-- Every distinct error message the command can produce, one constructor per
`Tcl_SetObjResult` site, carrying the data interpolated into the message. -/
inductive Err where
  | missingDefinition
  | argsVarNotFound
  | tooManyArgsTop
  | emptyElementDef
  | inlineKeepConflict
  | mixedPfirstConflict
  | badOption (tok : String)
  | optRequiresArg (sw : String)
  | switchParameterConflict
  | inlineKeepElemConflict
  | badElementShorthand (tok : String)
  | badElementName (tok : String)
  | nameCollision (name : String)
  | requiresPair (a b : String)
  | conflict (a b : String)
  | upvarInlineConflict
  | disallowedCombo (a b c : String)
  | multipleCatchall (a b : String)
  | badAlias (alias0 : String)
  | aliasCollision (alias0 : String)
  | switchAliasCollision (a b : String)
  | multipleUpvars (a b : String)
  | badType (t : String)
  | undefinedConstraintRef (name cons other : String)
  | sharedKeyParameter (a b : String)
  | sharedKeyArgument (a b : String)
  | sharedKeyCatchall (a b : String)
  | sharedKeyDefault (a b : String)
  | badSwitch (arg : String) (valid : List String)
  | noArgAllowed (sw : String)
  | switchRequiresArg (sw : String)
  | missingRequiredSwitches (l : List String)
  | missingRequiredParameters (l : List String)
  | tooManyArguments
  | requiresOther (a b : String)
  | conflictsWith (a b : String)
  | doesNotAllow (a b : String)
  | enumMismatch (who arg : String) (table : List String)
  | typeMismatch (who v ty : String)
  | validationFailed (who v msg : String)
  | validationFailedCustom (msg : String)
  | outOfFuel
deriving Repr

/-- Compiled argument definition (`ArgumentDefinition` in argparse.h). -/
structure ArgDef where
  defDict : DDict
  aliasesDict : List (String × String)
  orderList : List String
  switchesList : List String
  upvarsDict : List (String × String)
  omitted : List String
  catchall : Option String
deriving Repr, Inhabited

/-- Fresh, empty argument definition (`InitArgumentDefinition`). -/
def ArgDef.empty : ArgDef := ⟨[], [], [], [], [], [], none⟩

/-- Model of `string map` with the Tcl left-to-right scan: at each position
the first matching nonempty pattern is substituted; otherwise one character
is copied. -/
def stringMapGo (pairs : List (String × String)) :
    Nat → List Char → String → String
  | 0, cs, acc => acc ++ String.mk cs
  | _, [], acc => acc
  | fuel + 1, c :: rest, acc =>
    match pairs.findSome? (fun p =>
        if ! p.1.data.isEmpty && p.1.data.isPrefixOf (c :: rest) then some p
        else none) with
    | some p =>
      stringMapGo pairs fuel ((c :: rest).drop p.1.length) (acc ++ p.2)
    | none => stringMapGo pairs fuel rest (acc.push c)

/-- Model of `EvalStringMap` applied to a string. -/
def stringMap (pairs : List (String × String)) (s : String) : String :=
  stringMapGo pairs s.data.length s.data ""

/-- Replacement of `-boolean` by `-default 0 -value 1`
(ParseElementDefinitions, the step at the comment of the same name): fires
for an explicit `-boolean`, or, when the global `-boolean` option is active,
for a switch with none of `-argument`, `-upvar`, `-default`, `-value`,
`-required`. -/
def booleanNormalize (gBool : Bool) (o : ODict) : ODict :=
  if (gBool && dictHas o "switch" && ! dictHas o "argument"
        && ! dictHas o "upvar" && ! dictHas o "default"
        && ! dictHas o "value" && ! dictHas o "required")
      || dictHas o "boolean" then
    dictPut (dictPut o "default" (.str "0")) "value" (.str "1")
  else o

/-- Collects the `-switch value` pairs of one element definition entry into
its option dictionary (the first loop of `ParseElementDefinitions`): each
token must be exactly an element switch; argument-bearing switches consume
the next token, and a trailing argument-bearing switch is an error. -/
def collectOpts : List TV → ODict → Except Err ODict
  | [], acc => .ok acc
  | t :: rest, acc =>
    let s := t.render
    if elementSwitches.contains s then
      let swName := String.mk (s.data.drop 1)
      if elementSwitchesWithArgs.contains swName then
        match rest with
        | [] => .error (.optRequiresArg swName)
        | v :: rest2 => collectOpts rest2 (dictPut acc swName v)
      else collectOpts rest (dictPut acc swName (.str ""))
    else .error (.badOption s)

/-- Does the alias value match `^\w[\w-]*( \w[\w-]*)*$`? -/
def aliasStringOk (s : String) : Bool :=
  let parts := splitOnChar ' ' s
  ! parts.isEmpty && parts.all isNameString

/-- Model of `BuildAliasJoinString`: a dash followed by each alias and a bar,
then the canonical name. -/
def aliasJoinString (o : ODict) (name : String) : String :=
  let aliases := match dictGet o "alias" with
    | some av => av.asStrList
    | none => []
  "-" ++ String.join (aliases.map (fun a => a ++ "|")) ++ name

/-- Adds a name to the omitted set, keeping insertion order. -/
def addOmitted (l : List String) (n : String) : List String :=
  if l.contains n then l else l ++ [n]

/-- Applies one shorthand flag character to the option dictionary. -/
def applyFlagChar (acc : ODict) (c : Char) : ODict :=
  if c = '=' then dictPut acc "argument" (.str "")
  else if c = '?' then dictPut acc "optional" (.str "")
  else if c = '!' then dictPut acc "required" (.str "")
  else if c = '*' then dictPut acc "catchall" (.str "")
  else if c = '^' then dictPut acc "upvar" (.str "")
  else acc

/-- Resolves the first token of an entry: shorthand when neither `-switch`
nor `-parameter` was given, otherwise a plain name checked against the name
regular expression.  Returns the element name and the augmented option
dictionary. -/
def resolveEntryName (first : TV) (opt0 : ODict) :
    Except Err (String × ODict) :=
  if ! dictHas opt0 "switch" && ! dictHas opt0 "parameter" then
    match parseShorthand first.render with
    | none => .error (.badElementShorthand first.render)
    | some sh =>
      let o1 := if sh.isSwitch then dictPut opt0 "switch" (.str "")
                else dictPut opt0 "parameter" (.str "")
      let o2 := match sh.alias0 with
        | some a =>
          if ! a.data.isEmpty then
            dictPut o1 "alias" (.lst ((splitOnChar '|' a).map .str))
          else o1
        | none => o1
      .ok (sh.name, sh.flags.data.foldl applyFlagChar o2)
  else
    if isNameString first.render then .ok (first.render, opt0)
    else .error (.badElementName first.render)

/-- First violated required-companion pair, in table order. -/
def checkRequirePairs (o : ODict) : Option Err :=
  requirePairs.findSome? (fun p =>
    if dictHas o p.1 && ! dictHas o p.2 then some (.requiresPair p.1 p.2)
    else none)

/-- First violated pairwise conflict, in table order. -/
def checkConflicts (o : ODict) : Option Err :=
  conflictTable.findSome? (fun row =>
    if dictHas o row.1 then
      row.2.findSome? (fun b =>
        if dictHas o b then some (.conflict row.1 b) else none)
    else none)

/-- First violated disallowed triple, in table order. -/
def checkDisallowed (o : ODict) : Option Err :=
  disallowedTriples.findSome? (fun t =>
    if dictHas o t.1 && dictHas o t.2.1 && dictHas o t.2.2 then
      some (.disallowedCombo t.1 t.2.1 t.2.2)
    else none)

/-- Expansion of named enumeration lists and validation expressions through
the global `-enum` and `-validate` dictionaries, with the `validateMsg`
bookkeeping of the source. -/
def expandEnumValidate (g : GlobalOpts) (o : ODict) : ODict :=
  match dictGet o "enum", g.enum with
  | some ev, some gdict =>
    (match dictGet gdict ev.render with
     | some gv => dictPut o "enum" gv
     | none => o)
  | _, _ =>
    match dictGet o "validate" with
    | some vv =>
      (match g.validate with
       | some gvd =>
         (match dictGet gvd vv.render with
          | some gv =>
            dictPut (dictPut o "validateMsg" (.str (vv.render ++ " validation")))
              "validate" (.str gv)
          | none => dictPut o "validateMsg" (.str ("validation: " ++ vv.render)))
       | none => dictPut o "validateMsg" (.str ("validation: " ++ vv.render)))
    | none => o

/-- Registers a parsed element in the accumulated definition: order and
catchall tracking for parameters, switch display list and alias links for
switches, collision checks, and the upvar target map. -/
def registerElement (name : String) (o : ODict) (ctx : ArgDef) :
    Except Err ArgDef := do
  let ctx ←
    if dictHas o "parameter" then
      let ctx := { ctx with orderList := ctx.orderList ++ [name] }
      if dictHas o "catchall" then
        match ctx.catchall with
        | some c => .error (.multipleCatchall c name)
        | none => .ok { ctx with catchall := some name }
      else .ok ctx
    else
      match dictGet o "alias" with
      | none => .ok { ctx with switchesList := ctx.switchesList ++ ["-" ++ name] }
      | some av =>
        if ¬ aliasStringOk av.render then .error (.badAlias av.render)
        else if av.asStrList.any (fun a => dictHas ctx.aliasesDict a) then
          .error (.aliasCollision av.render)
        else
          .ok { ctx with
            aliasesDict := av.asStrList.foldl
              (fun d a => dictPut d a name) ctx.aliasesDict,
            switchesList := ctx.switchesList ++ [aliasJoinString o name] }
  match dictGet ctx.aliasesDict name with
  | some other => .error (.switchAliasCollision other name)
  | none =>
  match (if dictHas o "upvar" then dictGet o "key" else none) with
  | some k =>
    (match dictGet ctx.upvarsDict k.render with
     | some prev => .error (.multipleUpvars prev name)
     | none =>
       .ok { ctx with upvarsDict := dictPut ctx.upvarsDict k.render name })
  | none => .ok ctx

/-- Model of one iteration of the element-definition loop of
`ParseElementDefinitions`: option collection, name resolution, derived
attributes, pairwise checks, boolean normalization, default key and level,
list building, enum and validate expansion, type vocabulary check, and
finally storing the element. -/
def parseEntry (g : GlobalOpts) (toks : List TV) (ctx : ArgDef) :
    Except Err ArgDef := do
  let opt0 ← collectOpts (toks.drop 1) []
  match toks with
  | [] => .error .emptyElementDef
  | first :: _ =>
  if dictHas opt0 "switch" && dictHas opt0 "parameter" then
    .error .switchParameterConflict
  else if g.inlineRes && dictHas opt0 "keep" then
    .error .inlineKeepElemConflict
  else do
  let (name, opt1) ← resolveEntryName first opt0
  if dictHas ctx.defDict name then .error (.nameCollision name)
  else do
  let opt2 :=
    if dictHas opt1 "switch" then
      if implyArgSwitches.any (fun sw => dictHas opt1 sw) then
        dictPut opt1 "argument" (.str "")
      else opt1
    else
      if (dictHas opt1 "catchall" || dictHas opt1 "optional")
          && ! dictHas opt1 "required" then
        dictPut opt1 "optional" (.str "")
      else dictPut opt1 "required" (.str "")
  match checkRequirePairs opt2 with
  | some e => .error e
  | none =>
  match checkConflicts opt2 with
  | some e => .error e
  | none =>
  if g.inlineRes && dictHas opt2 "upvar" then .error .upvarInlineConflict
  else
  match checkDisallowed opt2 with
  | some e => .error e
  | none => do
  let opt3 := booleanNormalize g.boolean opt2
  let opt4 :=
    if dictHas opt3 "upvar" && ! dictHas opt3 "level" then
      dictPut opt3 "level" (.str (g.level.getD "1"))
    else opt3
  let opt5 :=
    if ! dictHas opt4 "ignore" && ! dictHas opt4 "key"
        && ! dictHas opt4 "pass" then
      match g.template with
      | some t =>
        dictPut opt4 "key"
          (.str (stringMap [("\\\\\\\\", "\\\\"), ("\\\\%", "%"), ("%", name)] t))
      | none => dictPut opt4 "key" (.str name)
    else opt4
  let ctx ← registerElement name opt5 ctx
  let opt6 := expandEnumValidate g opt5
  match dictGet opt6 "type" with
  | some tv =>
    if ¬ allowedTypesList.contains tv.render then .error (.badType tv.render)
    else
      .ok { ctx with defDict := dictPut ctx.defDict name opt6,
                     omitted := addOmitted ctx.omitted name }
  | none =>
    .ok { ctx with defDict := dictPut ctx.defDict name opt6,
                   omitted := addOmitted ctx.omitted name }

/-- Folds `parseEntry` over the element definitions. -/
def parseEntries (g : GlobalOpts) : List (List TV) → ArgDef → Except Err ArgDef
  | [], ctx => .ok ctx
  | e :: rest, ctx =>
    match parseEntry g e ctx with
    | .error err => .error err
    | .ok ctx2 => parseEntries g rest ctx2

/-- Model of `ParseElementDefinitions`: compiles an element-definition list
into an `ArgDef`. -/
def parseElementDefinitions (g : GlobalOpts) (defn : List (List TV)) :
    Except Err ArgDef :=
  parseEntries g defn ArgDef.empty

/-- Does the option dictionary of this name contain the given attribute
(model of `NestedDictKeyExists`)? -/
def nestedHas (dd : DDict) (n k : String) : Bool :=
  match dictGet dd n with
  | some o => dictHas o k
  | none => false

/-- Nested attribute access (model of `GetNestedDictValue`). -/
def nestedGet (dd : DDict) (n k : String) : Option TV :=
  (dictGet dd n).bind (fun o => dictGet o k)

/-- Model of `SetNestedDictKey`: writes an attribute of one element, creating
the element dictionary when absent. -/
def setNested (dd : DDict) (n k : String) (v : TV) : DDict :=
  dictPut dd n (dictPut ((dictGet dd n).getD []) k v)

/-- Model of `UnsetNestedDictKey`: removes an attribute of one element; a
missing element dictionary is left untouched. -/
def unsetNested (dd : DDict) (n k : String) : DDict :=
  match dictGet dd n with
  | some o => dictPut dd n (dictRemove o k)
  | none => dd

/-- Model of `tcl::prefix match`: an exact occurrence wins; otherwise, unless
exact mode is requested, a string that is a prefix of exactly one table entry
resolves to that entry; anything else fails. -/
def prefixMatchList (table : List String) (s : String) (exact : Bool) :
    Option String :=
  if table.contains s then some s
  else if exact then none
  else
    match table.filter (fun t => strPrefix s t) with
    | [x] => some x
    | _ => none

/-- Builds the validation-failure error of `ValidateHelper`: the substituted
`-errormsg` when present, else the generic message carrying the
`validateMsg` text (or the word validation). -/
def mkValidationErr (o : ODict) (who v : String) : Err :=
  match dictGet o "errormsg" with
  | some m => .validationFailedCustom m.render
  | none =>
    .validationFailed who v
      (((dictGet o "validateMsg").map TV.render).getD "validation")

/-- Model of `ValidateHelper`: `-enum` values are resolved by prefix matching
against the enumeration (substituting the canonical form), `-validate`
expressions are evaluated through the oracle, and without either the value
passes unchanged.  In list mode the first failing element aborts. -/
def validateHelper (oracle : Oracles) (g : GlobalOpts) (who : String)
    (o : ODict) (arg : TV) (listFlag : Bool) : Except Err TV :=
  if listFlag then
    let items := arg.asStrList
    match dictGet o "enum" with
    | some ev =>
      let table := ev.asStrList
      (items.mapM (fun v =>
        match prefixMatchList table v g.exact with
        | some c => Except.ok c
        | none => Except.error (Err.enumMismatch who v table))).map
        (fun (l : List String) => TV.lst (l.map TV.str))
    | none =>
      match dictGet o "validate" with
      | some vexpr =>
        (match items.findSome? (fun v =>
            if oracle.evalBool vexpr.render who v then none else some v) with
         | some bad => .error (mkValidationErr o who bad)
         | none => .ok arg)
      | none => .ok arg
  else
    match dictGet o "enum" with
    | some ev =>
      let table := ev.asStrList
      (match prefixMatchList table arg.render g.exact with
       | some c => .ok (.str c)
       | none => .error (.enumMismatch who arg.render table))
    | none =>
      match dictGet o "validate" with
      | some vexpr =>
        if oracle.evalBool vexpr.render who arg.render then .ok arg
        else .error (mkValidationErr o who arg.render)
      | none => .ok arg

/-- Recognizer standing for `Tcl_GetIntFromObj` (an out-of-scope interpreter
primitive): an optional sign followed by at least one digit. -/
def isIntString (s : String) : Bool :=
  match (trimBlanks s).data with
  | [] => false
  | c :: rest =>
    if c = '+' || c = '-' then ! rest.isEmpty && rest.all Char.isDigit
    else (c :: rest).all Char.isDigit

/-- Recognizer standing for `Tcl_GetDoubleFromObj` (out-of-scope primitive):
sign, digits, point, exponent characters only, with at least one digit. -/
def isDoubleString (s : String) : Bool :=
  let t := (trimBlanks s).data
  ! t.isEmpty && t.any Char.isDigit
    && t.all (fun c =>
      c.isDigit || c = '+' || c = '-' || c = '.' || c = 'e' || c = 'E')

/-- Recognizer standing for `Tcl_GetBooleanFromObj` (out-of-scope
primitive): 0, 1, on, off, or a prefix of true, false, yes or no. -/
def isTclBooleanString (s : String) : Bool :=
  let t := lowerStr s
  t = "0" || t = "1" || t = "on" || t = "off"
    || (! t.data.isEmpty && (strPrefix t "true" || strPrefix t "false"
          || strPrefix t "yes" || strPrefix t "no"))

/-- One value check of `TypeChecker`: fast paths for integer, double, digit
(first character a digit, from the glob pattern) and boolean, falling back
to the `string is` oracle. -/
def typeOk (oracle : Oracles) (t v : String) : Bool :=
  if t = "integer" then isIntString v
  else if t = "double" then isDoubleString v
  else if t = "digit" then
    (match v.data with
     | [] => false
     | c :: _ => c.isDigit)
  else if t = "boolean" then isTclBooleanString v
  else oracle.stringIs t v

/-- Model of `TypeChecker`: with `-type` set, every collected value must
satisfy the type; the first failing value aborts with a type mismatch. -/
def typeChecker (oracle : Oracles) (who : String) (o : ODict) (arg : TV)
    (listFlag : Bool) : Except Err TV :=
  match dictGet o "type" with
  | none => .ok arg
  | some tv =>
    let ty := tv.render
    let vals := if listFlag then arg.asStrList else [arg.render]
    match vals.findSome? (fun v =>
        if typeOk oracle ty v then none else some v) with
    | some bad => .error (.typeMismatch who bad ty)
    | none => .ok arg

/-- First dangling `require`, `forbid` or `allow` reference of one element,
in constraint-table order (the reference verification loop of
`ArgparseCmdProc2`). -/
def verifyRefs (dd : DDict) (name : String) (o : ODict) : Option Err :=
  constraintNames.findSome? (fun cons =>
    match dictGet o cons with
    | some lv =>
      lv.asStrList.findSome? (fun other =>
        if dictHas dd other then none
        else some (.undefinedConstraintRef name cons other))
    | none => none)

/-- Reciprocal requirement injection: when the element (or the global option)
asks for reciprocity and has a `require` list, the element is appended to
the `require` list of every referenced element. -/
def reciprocalInject (g : GlobalOpts) (name : String) (o : ODict)
    (dd : DDict) : DDict :=
  if g.reciprocal || dictHas o "reciprocal" then
    match dictGet o "require" with
    | some rl =>
      rl.asStrList.foldl (fun dd other =>
        let otherOpt := (dictGet dd other).getD []
        let requireList := match dictGet otherOpt "require" with
          | some t => t.asList
          | none => []
        dictPut dd other
          (dictPut otherOpt "require" (.lst (requireList ++ [.str name]))))
        dd
    | none => dd
  else dd

/-- Shared-key handling for one element against the other elements (the
shared-key section of `ArgparseCmdProc2`): rejects parameters, argument
takers, catchalls and double defaults on a shared key, injects this element
into the forbid list of the key sharer unless already there, and gives this
element a default `value` equal to its own name when it declares none.  The
checks read `opt0`, the dictionary fetched at the start of the iteration, as
the source does. -/
def sharedKeyGo (name : String) (opt0 : ODict) (optKey : TV) :
    List String → DDict → Except Err DDict
  | [], dd => .ok dd
  | otherName :: rest, dd =>
    match dictGet dd otherName with
    | none => sharedKeyGo name opt0 optKey rest dd
    | some otherOpt =>
      if name ≠ otherName ∧ ((dictGet otherOpt "key").map TV.render)
          = some optKey.render then
        if dictHas opt0 "parameter" then
          .error (.sharedKeyParameter name otherName)
        else if dictHas opt0 "argument" then
          .error (.sharedKeyArgument name otherName)
        else if dictHas opt0 "catchall" then
          .error (.sharedKeyCatchall name otherName)
        else if dictHas opt0 "default" && dictHas otherOpt "default" then
          .error (.sharedKeyDefault name otherName)
        else
          let nameInForbid := match dictGet otherOpt "forbid" with
            | some fl => inListTV name fl
            | none => false
          let dd1 :=
            if dictHas otherOpt "forbid" && nameInForbid then dd
            else
              dictPut dd otherName
                (dictLappendElem ((dictGet dd otherName).getD []) "forbid"
                  (.str name))
          let dd2 :=
            if ¬ dictHas opt0 "value" then
              dictPut dd1 name
                (dictPut ((dictGet dd1 name).getD []) "value" (.str name))
            else dd1
          sharedKeyGo name opt0 optKey rest dd2
      else sharedKeyGo name opt0 optKey rest dd

/-- One iteration of the post-compile loop: reference verification, then
reciprocal injection, then shared-key handling, all for a single element. -/
def postCompileStep (g : GlobalOpts) (keys : List String) (dd : DDict)
    (name : String) : Except Err DDict :=
  match dictGet dd name with
  | none => .ok dd
  | some opt0 =>
    match verifyRefs dd name opt0 with
    | some e => .error e
    | none =>
      let dd1 := reciprocalInject g name opt0 dd
      match dictGet opt0 "key" with
      | some optKey => sharedKeyGo name opt0 optKey keys dd1
      | none => .ok dd1

/-- Folds `postCompileStep` over a list of element names. -/
def postCompileGo (g : GlobalOpts) (keys : List String) :
    List String → DDict → Except Err DDict
  | [], dd => .ok dd
  | n :: rest, dd =>
    match postCompileStep g keys dd n with
    | .error e => .error e
    | .ok dd2 => postCompileGo g keys rest dd2

/-- Model of the per-invocation constraint and shared-key processing that
`ArgparseCmdProc2` performs on the fresh copy of the cached definition.  The
key snapshot is taken up front, as `DictKeys` does in the source. -/
def postCompile (g : GlobalOpts) (ad : ArgDef) : Except Err ArgDef :=
  let keys := dictKeys ad.defDict
  match postCompileGo g keys keys ad.defDict with
  | .error e => .error e
  | .ok dd => .ok { ad with defDict := dd }

/-- Model of the help trigger: the global `-help` option is set and the help
token (`--help` under `-long`, else `-help`) occurs in the argument list. -/
def helpTriggered (g : GlobalOpts) (argv : List String) : Bool :=
  g.help.isSome && argv.contains (if g.long then "--help" else "-help")

/-- Model of the default pass-through dummy element: with the global `-pass`
option, an element with empty name carrying only that pass key is added. -/
def passDummy (g : GlobalOpts) (ad : ArgDef) : ArgDef :=
  match g.pass with
  | some p => { ad with defDict := dictPut ad.defDict "" [("pass", .str p)] }
  | none => ad

/-- Model of the `-pfirst` reorder: required parameters first, keeping the
relative order inside each group. -/
def pfirstReorder (g : GlobalOpts) (ad : ArgDef) : ArgDef :=
  if g.pfirst then
    let req := ad.orderList.filter (fun n => nestedHas ad.defDict n "required")
    let opt := ad.orderList.filter
      (fun n => ¬ nestedHas ad.defDict n "required")
    { ad with orderList := req ++ opt }
  else ad

/-- Model of the force split that routes required parameters around switch
processing: without `-mixed`, the last (or with `-pfirst` the first) as many
arguments as there are required parameters are withheld from the switch
phase; returns the switch-phase arguments, the withheld ones, and the stale
`end` index the switch loop keeps using. -/
def forceSplit (g : GlobalOpts) (ad : ArgDef) (argv : List String) :
    List String × List String × Int :=
  let lenArgv : Int := argv.length
  if ¬ g.mixed then
    if g.pfirst then
      let start := (ad.orderList.filter
        (fun n => nestedHas ad.defDict n "required")).length
      (listRange argv start (lenArgv - 1), argv.take start, lenArgv - 1)
    else
      let req := (ad.orderList.filter
        (fun n => nestedHas ad.defDict n "required")).length
      let endIdx : Int := lenArgv - 1 - req
      (listRange argv 0 endIdx, argv.drop (endIdx + 1).toNat, endIdx)
  else (listRange argv 0 (lenArgv - 1), [], lenArgv - 1)

/-- State threaded through the switch-processing loop. -/
structure MatchSt where
  argv : List String
  params : List String
  resultDict : List (String × TV)
  defDict : DDict
  omitted : List String
deriving Repr, Inhabited

/-- Parsed form of an argument that looks like a switch. -/
structure SwitchTok where
  name : String
  hasEq : Bool
  val : String
deriving Repr

/-- Model of the switch-syntax regular expression of `ArgparseCmdProc2`
(`^-` then optionally a second dash under `-long`, a name of word characters
with dashes allowed after the first, and under `-equalarg` an optional
`=value` tail). -/
def parseSwitchToken (long equalarg : Bool) (arg : String) :
    Option SwitchTok :=
  match arg.data with
  | '-' :: rest =>
    let body := if long then
        (match rest with
         | '-' :: r2 => r2
         | _ => rest)
      else rest
    (match body with
     | [] => none
     | c :: cs =>
       if ¬ isWordChar c then none
       else
         let nmTail := cs.takeWhile (fun d => isWordChar d || d = '-')
         let after := cs.drop nmTail.length
         let nm := String.mk (c :: nmTail)
         if after.isEmpty then some ⟨nm, false, ""⟩
         else if equalarg then
           match after with
           | '=' :: v => some ⟨nm, true, String.mk v⟩
           | _ => none
         else none)
  | _ => none

/-- Standalone handling: clears `required`, `require`, `forbid` and `allow`
on every element and makes every parameter optional. -/
def clearConstraints (dd : DDict) : DDict :=
  dd.map (fun p =>
    let o := dictRemove (dictRemove (dictRemove (dictRemove p.2 "required")
      "require") "forbid") "allow"
    (p.1, if dictHas o "parameter" then dictPut o "optional" (.str "") else o))

/-- Budget covering all tokens the loop can ever reinject through `-imply`;
together with the argument count it bounds the iteration count of the
switch loop of the source, whose measure decreases by at least one per
iteration. -/
def implyBudget (dd : DDict) : Nat :=
  dd.foldl (fun n p =>
    n + (match dictGet p.2 "imply" with
         | some t => t.asList.length + 1
         | none => 0)) 0

/-- Model of one full iteration tail of the switch loop after an argument has
been recognized and processed: reinjects `-imply` tokens at the front of the
queue and erases the imply attribute. -/
def applyImply (nm : String) (st : MatchSt) : MatchSt :=
  match nestedGet st.defDict nm "imply" with
  | some iv =>
    { st with argv := iv.asStrList ++ st.argv,
              defDict := unsetNested st.defDict nm "imply" }
  | none => st

/-- Model of the switch-processing loop of `ArgparseCmdProc2`.  Each
iteration pops the front argument; switch-looking arguments are resolved
through aliases, exact lookup, prefix matching, or the pass-through dummy;
`--` ends the phase; in `-mixed` or `-pfirst` mode other arguments are
deferred, otherwise they end the phase.  A matched switch is marked present,
consumes zero, one or all remaining arguments, is validated and type
checked, and lands in the result dictionary or its pass-through key. -/
def switchLoop (oracle : Oracles) (g : GlobalOpts)
    (aliases : List (String × String)) (switchesList : List String)
    (endIdx : Int) : Nat → MatchSt → Except Err MatchSt
  | 0, st => if st.argv.isEmpty then .ok st else .error .outOfFuel
  | fuel + 1, st =>
    match st.argv with
    | [] => .ok st
    | arg :: argvRest =>
      match parseSwitchToken g.long g.equalarg arg with
      | none =>
        if arg = "--" then .ok { st with argv := [], params := argvRest }
        else if g.mixed || g.pfirst then
          switchLoop oracle g aliases switchesList endIdx fuel
            { st with argv := argvRest, params := st.params ++ [arg] }
        else .ok { st with argv := [], params := arg :: argvRest }
      | some tok =>
        let name1 := (dictGet aliases tok.name).getD tok.name
        let matchTable :=
          (st.defDict.filter (fun p => dictHas p.2 "switch")).map Prod.fst
        let prefixRes := prefixMatchList matchTable name1 false
        let resolved : Option (String × String) :=
          if nestedHas st.defDict name1 "switch" then
            some (name1, "-" ++ name1)
          else if ¬ g.exact ∧ prefixRes.isSome then
            prefixRes.map (fun p => (p, "-" ++ p))
          else if dictHas st.defDict "" then some ("", "-" ++ name1)
          else none
        match resolved with
        | none => .error (.badSwitch arg (sortStrings switchesList))
        | some (nm, normal) =>
          let dd1 := if nestedHas st.defDict nm "standalone" then
              clearConstraints st.defDict
            else st.defDict
          let dd2 := setNested dd1 nm "present" (.str "")
          let argv1 := if tok.hasEq then tok.val :: argvRest else argvRest
          let keyLoc := nestedGet dd2 nm "key"
          let passLoc := nestedGet dd2 nm "pass"
          let omitted1 := st.omitted.filter (fun x => x ≠ nm)
          let eo := (dictGet dd2 nm).getD []
          if nestedHas dd2 nm "catchall" then
            match validateHelper oracle g normal eo
                (.lst (argv1.map .str)) true with
            | .error e => .error e
            | .ok rl =>
              match typeChecker oracle normal eo rl true with
              | .error e => .error e
              | .ok _ =>
                let rd1 := match keyLoc with
                  | some k => dictPut st.resultDict k.render rl
                  | none => st.resultDict
                let rd2 := match passLoc with
                  | some p =>
                    if g.normalize then
                      dictLappend rd1 p.render (.lst (.str normal :: rl.asList))
                    else
                      dictLappend rd1 p.render (.lst (.str arg :: rl.asList))
                  | none => rd1
                .ok ⟨[], st.params, rd2, dd2, omitted1⟩
          else if ¬ nestedHas dd2 nm "argument" then
            if tok.hasEq then .error (.noArgAllowed normal)
            else
              let rd1 := match keyLoc with
                | some k =>
                  (match nestedGet dd2 nm "value" with
                   | some vl => dictPut st.resultDict k.render vl
                   | none => dictPut st.resultDict k.render (.str ""))
                | none => st.resultDict
              let rd2 := match passLoc with
                | some p =>
                  dictLappendElem rd1 p.render
                    (.str (if g.normalize then normal else arg))
                | none => rd1
              switchLoop oracle g aliases switchesList endIdx fuel
                (applyImply nm ⟨argv1, st.params, rd2, dd2, omitted1⟩)
          else
            match argv1 with
            | v :: _ =>
              (match validateHelper oracle g normal eo (.str v) false with
               | .error e => .error e
               | .ok rl =>
                 match typeChecker oracle normal eo rl false with
                 | .error e => .error e
                 | .ok _ =>
                   let rd1 := match keyLoc with
                     | some k =>
                       if nestedHas dd2 nm "optional" then
                         dictPut st.resultDict k.render (.lst [.lst [], rl])
                       else dictPut st.resultDict k.render rl
                     | none => st.resultDict
                   let rd2 := match passLoc with
                     | some p =>
                       if g.normalize then
                         dictLappend rd1 p.render (.lst [.str normal, rl])
                       else if tok.hasEq then
                         dictLappendElem rd1 p.render (.str arg)
                       else dictLappend rd1 p.render (.lst [.str arg, rl])
                     | none => rd1
                   switchLoop oracle g aliases switchesList endIdx fuel
                     (applyImply nm
                       ⟨listRange argv1 1 endIdx, st.params, rd2, dd2,
                        omitted1⟩))
            | [] =>
              if ¬ nestedHas dd2 nm "optional" then
                .error (.switchRequiresArg normal)
              else
                let rd1 := match keyLoc with
                  | some k => dictPut st.resultDict k.render (.str "")
                  | none => st.resultDict
                let rd2 := match passLoc with
                  | some p =>
                    dictLappendElem rd1 p.render
                      (.str (if g.normalize then normal else arg))
                  | none => rd1
                switchLoop oracle g aliases switchesList endIdx fuel
                  (applyImply nm ⟨[], st.params, rd2, dd2, omitted1⟩)

/-- Required switches never seen, rendered with their aliases, in definition
order (the missing-switch accumulation after the loop). -/
def missingSwitchList (dd : DDict) : List String :=
  dd.foldl (fun acc p =>
    if dictHas p.2 "switch" && ! dictHas p.2 "present"
        && dictHas p.2 "required" then
      acc ++ [if dictHas p.2 "alias" then aliasJoinString p.2 p.1
              else "-" ++ p.1]
    else acc) []

/-- The switch phase as a whole: skipped entirely when no switches are
defined, otherwise the loop followed by the missing-required-switch check
(sorted, before any positional processing). -/
def switchStage (oracle : Oracles) (g : GlobalOpts) (ad : ArgDef)
    (sArgv : List String) (endIdx : Int) : Except Err MatchSt :=
  if ad.switchesList.isEmpty then
    .ok ⟨[], sArgv, [], ad.defDict, ad.omitted⟩
  else
    match switchLoop oracle g ad.aliasesDict ad.switchesList endIdx
        (sArgv.length + implyBudget ad.defDict + 1)
        ⟨sArgv, [], [], ad.defDict, ad.omitted⟩ with
    | .error e => .error e
    | .ok st =>
      let missing := missingSwitchList st.defDict
      if missing.isEmpty then .ok st
      else .error (.missingRequiredSwitches (sortStrings missing))

/-- Result of positional allocation. -/
structure AllocOut where
  defDict : DDict
  omitted : List String
  resultDict : List (String × TV)
  alloc : List (String × Nat)
  orderList : List String
  params : List String
deriving Repr, Inhabited

/-- Allocation of one argument to each required parameter in order; required
parameters beyond the token count accumulate in the missing list. -/
def requiredAllocGo : List String → DDict → List String →
    List (String × Nat) → Nat → List String →
    DDict × List String × List (String × Nat) × Nat × List String
  | [], dd, om, al, c, miss => (dd, om, al, c, miss)
  | n :: rest, dd, om, al, c, miss =>
    if nestedHas dd n "required" then
      if c > 0 then
        requiredAllocGo rest (setNested dd n "present" (.str ""))
          (om.filter (fun x => x ≠ n)) (dictPut al n 1) (c - 1) miss
      else requiredAllocGo rest dd om al c (miss ++ [n])
    else requiredAllocGo rest dd om al c miss

/-- Allocation of one argument to each optional, non-catchall parameter in
order while arguments remain. -/
def optionalAllocGo : List String → DDict → List String →
    List (String × Nat) → Nat →
    DDict × List String × List (String × Nat) × Nat
  | [], dd, om, al, c => (dd, om, al, c)
  | n :: rest, dd, om, al, c =>
    if c = 0 then (dd, om, al, c)
    else if ! nestedHas dd n "required" && ! nestedHas dd n "catchall" then
      optionalAllocGo rest (setNested dd n "present" (.str ""))
        (om.filter (fun x => x ≠ n)) (dictPut al n 1) (c - 1)
    else optionalAllocGo rest dd om al c

/-- The positional allocation phase: merges the withheld arguments back (in
front under `-pfirst`, behind otherwise), allocates to required then
optional parameters, and sends any excess to the catchall parameter, else to
the pass-through dummy, else fails with too many arguments. -/
def allocStage (g : GlobalOpts) (st : MatchSt) (force : List String)
    (orderList : List String) (catchall : Option String) :
    Except Err AllocOut :=
  let params := if g.pfirst then force ++ st.params else st.params ++ force
  let count := params.length
  match requiredAllocGo orderList st.defDict st.omitted [] count [] with
  | (dd1, om1, al1, c1, miss) =>
    if ¬ miss.isEmpty then .error (.missingRequiredParameters miss)
    else
      match (if c1 > 0 then optionalAllocGo orderList dd1 om1 al1 c1
             else (dd1, om1, al1, c1)) with
      | (dd2, om2, al2, c2) =>
        if c2 > 0 then
          match catchall with
          | some cn =>
            .ok ⟨dd2, om2.filter (fun x => x ≠ cn), st.resultDict,
                 dictPut al2 cn (((dictGet al2 cn).getD 0) + c2),
                 orderList, params⟩
          | none =>
            if dictHas dd2 "" then
              .ok ⟨dd2, om2, st.resultDict, dictPut al2 "" c2,
                   orderList ++ [""], params⟩
            else .error .tooManyArguments
        else .ok ⟨dd2, om2, st.resultDict, al2, orderList, params⟩

/-- Element name as shown in constraint errors: switches get a dash. -/
def dashOf (dd : DDict) (n : String) : String :=
  if nestedHas dd n "switch" then "-" ++ n else n

/-- The require and forbid sweep over present elements, in definition order:
a present element requiring an absent one, or forbidding a present one, is
the first error. -/
def requireForbidSweep (dd : DDict) : Option Err :=
  dd.findSome? (fun p =>
    if dictHas p.2 "present" then
      let reqErr := match dictGet p.2 "require" with
        | some rl =>
          rl.asStrList.findSome? (fun other =>
            if ¬ nestedHas dd other "present" then
              some (.requiresOther (dashOf dd p.1) (dashOf dd other))
            else none)
        | none => none
      match reqErr with
      | some e => some e
      | none =>
        match dictGet p.2 "forbid" with
        | some fl =>
          fl.asStrList.findSome? (fun other =>
            if nestedHas dd other "present" then
              some (.conflictsWith (dashOf dd p.1) (dashOf dd other))
            else none)
        | none => none
    else none)

/-- The allow sweep: every present element declaring `allow` must list every
other present element (self is implicitly allowed); names are reported
without dashes, as in the source. -/
def allowSweep (dd : DDict) : Option Err :=
  let presented := (dd.filter (fun p => dictHas p.2 "present")).map Prod.fst
  dd.findSome? (fun p =>
    if dictHas p.2 "present" then
      match dictGet p.2 "allow" with
      | some al =>
        presented.findSome? (fun q =>
          if q = p.1 then none
          else if ¬ inListTV q al then some (.doesNotAllow p.1 q) else none)
      | none => none
    else none)

/-- Under `-normalize`, omitted switches with a pass-through key, an argument
and a default push their normalized form and default onto the pass key. -/
def normalizePassDefaults (g : GlobalOpts) (dd : DDict)
    (omitted : List String) (rd : List (String × TV)) :
    List (String × TV) :=
  if g.normalize then
    dd.foldl (fun rd p =>
      match dictGet p.2 "switch", dictGet p.2 "pass", dictGet p.2 "argument",
          dictGet p.2 "default" with
      | some _, some pv, some _, some dv =>
        if omitted.contains p.1 then
          dictLappend rd pv.render (.lst [.str ("-" ++ p.1), dv])
        else rd
      | _, _, _, _ => rd) rd
  else rd

/-- The parameter storing loop: walks the order list, hands each allocated
non-catchall parameter the next argument (validated and type checked) and
each catchall its argument range, maintains pass-through keys with the
double-dash guard, and under `-normalize` pushes defaults of unallocated
parameters onto their pass keys. -/
def storeParams (oracle : Oracles) (g : GlobalOpts) :
    List String → Nat → List String → DDict → List (String × Nat) →
    List (String × TV) → Except Err (List (String × TV))
  | [], _, _, _, _, rd => .ok rd
  | n :: rest, indx, params, dd, alloc, rd =>
    let o := (dictGet dd n).getD []
    if (dictGet alloc n).isSome then
      if ! dictHas o "catchall" && n.length != 0 then
        match validateHelper oracle g n o (.str (params.getD indx ""))
            false with
        | .error e => .error e
        | .ok rl =>
          match typeChecker oracle n o rl false with
          | .error e => .error e
          | .ok _ =>
            let rd1 := match dictGet o "pass" with
              | some pv =>
                let rd0 :=
                  if startsWithDash rl.render && ! dictHas rd pv.render then
                    dictLappendElem rd pv.render (.str "--")
                  else rd
                dictLappendElem rd0 pv.render rl
              | none => rd
            let rd2 := match dictGet o "key" with
              | some kv => dictPut rd1 kv.render rl
              | none => rd1
            storeParams oracle g rest (indx + 1) params dd alloc rd2
      else
        let step := (dictGet alloc n).getD 0
        let val := TV.lst ((listRange params (indx : Int)
          ((indx : Int) + (step : Int) - 1)).map .str)
        match (if n.length > 0 then validateHelper oracle g n o val true
               else .ok val) with
        | .error e => .error e
        | .ok rl =>
          match (if n.length > 0 then typeChecker oracle n o rl true
                 else .ok rl) with
          | .error e => .error e
          | .ok _ =>
            let rd1 := match dictGet o "pass" with
              | some pv =>
                let v0 := ((rl.asList.head?).map TV.render).getD ""
                let rd0 :=
                  if startsWithDash v0 && ! dictHas rd pv.render then
                    dictLappendElem rd pv.render (.str "--")
                  else rd
                dictLappend rd0 pv.render rl
              | none => rd
            let rd2 := match dictGet o "key" with
              | some kv => dictPut rd1 kv.render rl
              | none => rd1
            storeParams oracle g rest (indx + step) params dd alloc rd2
    else
      if g.normalize then
        match dictGet o "default", dictGet o "pass" with
        | some dv, some pv =>
          let rd0 :=
            if startsWithDash dv.render && ! dictHas rd pv.render then
              dictLappendElem rd pv.render (.str "--")
            else rd
          storeParams oracle g rest indx params dd alloc
            (dictLappendElem rd0 pv.render dv)
        | _, _ => storeParams oracle g rest indx params dd alloc rd
      else storeParams oracle g rest indx params dd alloc rd

/-- Default filling for missing elements: an unset output key receives the
default value, or the empty string for catchalls; an unset pass-through key
receives the empty string. -/
def fillDefaults (dd : DDict) (rd : List (String × TV)) :
    List (String × TV) :=
  dd.foldl (fun rd p =>
    let rd := match dictGet p.2 "key" with
      | some kv =>
        if ¬ dictHas rd kv.render then
          match dictGet p.2 "default" with
          | some dv => dictPut rd kv.render dv
          | none =>
            if dictHas p.2 "catchall" then dictPut rd kv.render (.str "")
            else rd
        else rd
      | none => rd
    match dictGet p.2 "pass" with
    | some pv =>
      if ¬ dictHas rd pv.render then dictPut rd pv.render (.str "")
      else rd
    | none => rd) rd

/-- Caller-scope effect of the binding phase. -/
inductive BindAct where
  | unsetVar (v : String)
  | setVar (v : String) (val : TV)
  | upvarLink (level : String) (target : String) (localVar : String)
deriving Repr

/-- Result of one invocation: a help return, the inline result dictionary, or
the result dictionary together with the variable-binding actions. -/
inductive Outcome where
  | help
  | inlineResult (result : List (String × TV))
  | bound (result : List (String × TV)) (acts : List BindAct)
deriving Repr

/-- The output phase: inline mode returns the result dictionary; otherwise,
unless `-keep` is set, output keys of omitted non-keep elements that are
absent from the result are unset, and every result entry is either
upvar-linked (when its key names an upvar target) or set in caller scope. -/
def buildOutput (g : GlobalOpts) (dd : DDict) (omitted : List String)
    (upvars : List (String × String)) (rd : List (String × TV)) : Outcome :=
  if g.inlineRes then .inlineResult rd
  else
    let unsets : List BindAct :=
      if ¬ g.keep then
        omitted.foldl (fun acc n =>
          let o := (dictGet dd n).getD []
          match dictGet o "key" with
          | some kv =>
            if ! dictHas o "keep" && ! dictHas rd kv.render then
              acc ++ [.unsetVar kv.render]
            else acc
          | none => acc) []
      else []
    let sets : List BindAct := rd.foldl (fun acc p =>
      match dictGet upvars p.1 with
      | some elemName =>
        acc ++ [.upvarLink (((nestedGet dd elemName "level").map
          TV.render).getD "") p.2.render p.1]
      | none => acc ++ [.setVar p.1 p.2]) []
    .bound rd (unsets ++ sets)

/-- The matching pipeline after a compiled definition is at hand: pass
dummy, parameter reorder, force split, switch phase, positional allocation,
require and forbid sweep, allow sweep, normalization, parameter storing,
default filling and output. -/
def matchStage (oracle : Oracles) (g : GlobalOpts) (ad : ArgDef)
    (argv : List String) : Except Err Outcome :=
  let ad1 := pfirstReorder g (passDummy g ad)
  match forceSplit g ad1 argv with
  | (sArgv, force, endIdx) =>
    match switchStage oracle g ad1 sArgv endIdx with
    | .error e => .error e
    | .ok st =>
      match allocStage g st force ad1.orderList ad1.catchall with
      | .error e => .error e
      | .ok a =>
        match requireForbidSweep a.defDict with
        | some e => .error e
        | none =>
          match allowSweep a.defDict with
          | some e => .error e
          | none =>
            let rd0 := normalizePassDefaults g a.defDict a.omitted
              a.resultDict
            match storeParams oracle g a.orderList 0 a.params a.defDict
                a.alloc rd0 with
            | .error e => .error e
            | .ok rd1 =>
              .ok (buildOutput g a.defDict a.omitted ad1.upvarsDict
                (fillDefaults a.defDict rd1))

/-- Comment pre-processing of the raw definition list: an empty entry is an
error; an entry whose first token renders as a number sign is dropped, and
when its length is exactly one it arms the skip flag; an armed flag skips
the next ordinary entry and disarms. -/
def preprocessGo : List (List TV) → Bool → Except Err (List (List TV))
  | [], _ => .ok []
  | e :: rest, flag =>
    match e with
    | [] => .error .emptyElementDef
    | t0 :: _ =>
      if t0.render = "#" then
        if e.length = 1 then preprocessGo rest true
        else preprocessGo rest flag
      else if flag then preprocessGo rest false
      else
        match preprocessGo rest false with
        | .error e2 => .error e2
        | .ok l => .ok (e :: l)

/-- Model of the definition pre-processing loop of `ArgparseCmdProc2`. -/
def preprocessDefinition (dRaw : List (List TV)) :
    Except Err (List (List TV)) :=
  preprocessGo dRaw false

/-- All compile-time work on one invocation: comment pre-processing, the two
global conflict checks, element-definition compilation, and the
per-invocation constraint and shared-key processing. -/
def schemaStage (g : GlobalOpts) (dRaw : List (List TV)) :
    Except Err ArgDef :=
  match preprocessDefinition dRaw with
  | .error e => .error e
  | .ok defn =>
    if g.inlineRes && g.keep then .error .inlineKeepConflict
    else if g.mixed && g.pfirst then .error .mixedPfirstConflict
    else
      match parseElementDefinitions g defn with
      | .error e => .error e
      | .ok ad => postCompile g ad

/-- Shape of the arguments following the global options (and optional double
dash) of the command call, mirroring the `switch (objc - i)` of the source:
no definition at all, a definition with the argument list taken from the
caller variable `args`, a definition with an explicit argument list, or too
many arguments. -/
inductive TailForm where
  | noArgs
  | defOnly (defn : List (List TV))
  | defAndArgs (defn : List (List TV)) (argv : List String)
  | extraArgs (defn : List (List TV)) (argv : List String)
      (extra : List String)

/-- Resolution of the call shape: zero arguments miss the definition; one
argument pulls the list from the caller variable; two are definition and
arguments; more are too many. -/
def resolveTail : TailForm → Option (List String) →
    Except Err (List (List TV) × List String)
  | .noArgs, _ => .error .missingDefinition
  | .defOnly d, ca =>
    (match ca with
     | none => .error .argsVarNotFound
     | some a => .ok (d, a))
  | .defAndArgs d a, _ => .ok (d, a)
  | .extraArgs _ _ _, _ => .error .tooManyArgsTop

/-- Model of `ArgparseCmdProc2` after global-option scanning: call-shape
resolution, the schema stage, the help early return, then matching.  Errors
carry no result, mirroring the `cleanupOnError` path that discards all
partial state. -/
def argparseRun (oracle : Oracles) (g : GlobalOpts) (tail : TailForm)
    (callerArgs : Option (List String)) : Except Err Outcome :=
  match resolveTail tail callerArgs with
  | .error e => .error e
  | .ok (dRaw, argv) =>
    match schemaStage g dRaw with
    | .error e => .error e
    | .ok ad =>
      if helpTriggered g argv then .ok .help
      else matchStage oracle g ad argv

/-- Model of the canonical string representation of the definition list
(`Tcl_GetString` on the list object). -/
def renderDefinition (defn : List (List TV)) : String :=
  TV.render (.lst (defn.map .lst))

/-- Bitmask of present global options, one bit per `GlobalSwitchId` in enum
order. -/
def globalOptsMask (g : GlobalOpts) : Nat :=
  (if g.boolean then 1 else 0) + (if g.enum.isSome then 2 else 0)
  + (if g.equalarg then 4 else 0) + (if g.exact then 8 else 0)
  + (if g.inlineRes then 16 else 0) + (if g.keep then 32 else 0)
  + (if g.level.isSome then 64 else 0) + (if g.long then 128 else 0)
  + (if g.mixed then 256 else 0) + (if g.normalize then 512 else 0)
  + (if g.pass.isSome then 1024 else 0)
  + (if g.reciprocal then 2048 else 0)
  + (if g.template.isSome then 4096 else 0)
  + (if g.validate.isSome then 8192 else 0)
  + (if g.help.isSome then 16384 else 0)
  + (if g.helplevel.isSome then 32768 else 0)
  + (if g.pfirst then 65536 else 0) + (if g.helpret then 131072 else 0)

/-- Renders a structured global dictionary argument back to its string form
for the cache key. -/
def renderPairDict (d : List (String × TV)) : String :=
  TV.render (.lst (d.foldr (fun p acc => .str p.1 :: p.2 :: acc) []))

/-- Model of `GenerateGlobalSwitchesKey`: the bitmask, then one
`name=value;` piece per present value-bearing option, in enum order. -/
def globalOptsKey (g : GlobalOpts) : String :=
  toString (globalOptsMask g) ++ ":"
  ++ (match g.enum with
      | some d => "enum=" ++ renderPairDict d ++ ";"
      | none => "")
  ++ (match g.level with
      | some v => "level=" ++ v ++ ";"
      | none => "")
  ++ (match g.pass with
      | some v => "pass=" ++ v ++ ";"
      | none => "")
  ++ (match g.template with
      | some v => "template=" ++ v ++ ";"
      | none => "")
  ++ (match g.validate with
      | some d =>
        "validate="
        ++ renderPairDict (d.map (fun p => (p.1, TV.str p.2))) ++ ";"
      | none => "")
  ++ (match g.help with
      | some v => "help=" ++ v ++ ";"
      | none => "")
  ++ (match g.helplevel with
      | some v => "helplevel=" ++ v ++ ";"
      | none => "")

/-- The cache key of one invocation: definition rendering, a blank, and the
global-option key. -/
def signature (g : GlobalOpts) (defn : List (List TV)) : String :=
  renderDefinition defn ++ " " ++ globalOptsKey g

/-- Model of `CreateAndCacheArgDef` together with its call site: a hit
returns the cached definition untouched; a miss compiles, caches on success
and reports that a compilation ran; a failed compilation caches nothing. -/
def getOrCompile (cache : List (String × ArgDef)) (g : GlobalOpts)
    (defn : List (List TV)) :
    Except Err (ArgDef × List (String × ArgDef) × Bool) :=
  let key := signature g defn
  match dictGet cache key with
  | some ad => .ok (ad, cache, false)
  | none =>
    match parseElementDefinitions g defn with
    | .error e => .error e
    | .ok ad => .ok (ad, dictPut cache key ad, true)

/-- One binding action applied to a caller-scope variable store; an upvar
link is recorded as a distinguished binding of the local variable. -/
def applyAct (store : List (String × TV)) (a : BindAct) :
    List (String × TV) :=
  match a with
  | .unsetVar v => dictRemove store v
  | .setVar v val => dictPut store v val
  | .upvarLink lvl target localVar =>
    dictPut store localVar (.str ("upvar " ++ lvl ++ " " ++ target))

/-- Applies all binding actions in order. -/
def applyActs (acts : List BindAct) (store : List (String × TV)) :
    List (String × TV) :=
  acts.foldl applyAct store

/-- Store-level semantics of one invocation: the variable store is touched
only by the binding actions of a successful non-inline run; failures and
inline or help returns leave it untouched. -/
def runOnStore (oracle : Oracles) (g : GlobalOpts) (tail : TailForm)
    (callerArgs : Option (List String)) (store : List (String × TV)) :
    List (String × TV) × Except Err (List (String × TV)) :=
  match argparseRun oracle g tail callerArgs with
  | .error e => (store, .error e)
  | .ok .help => (store, .ok [])
  | .ok (.inlineResult r) => (store, .ok r)
  | .ok (.bound r acts) => (applyActs acts store, .ok r)

/-! Basic lemmas about the ordered dictionary operations. -/

theorem dictGet_dictPut_self {α : Type} (d : List (String × α)) (k : String)
    (v : α) : dictGet (dictPut d k v) k = some v := by
  induction d with
  | nil => simp [dictPut, dictGet]
  | cons p rest ih =>
    by_cases h : p.1 = k
    · simp [dictPut, dictGet, h]
    · simp [dictPut, dictGet, h, ih]

theorem dictGet_dictPut_ne {α : Type} (d : List (String × α)) (k k' : String)
    (v : α) (h : k' ≠ k) : dictGet (dictPut d k v) k' = dictGet d k' := by
  induction d with
  | nil =>
    simp only [dictPut, dictGet]
    rw [if_neg (Ne.symm h)]
  | cons p rest ih =>
    obtain ⟨p1, p2⟩ := p
    simp only [dictPut]
    by_cases hp : p1 = k
    · rw [if_pos hp]
      have hne : ¬ p1 = k' := by
        rw [hp]
        exact Ne.symm h
      simp only [dictGet]
      rw [if_neg hne, if_neg hne]
    · rw [if_neg hp]
      simp only [dictGet]
      by_cases hp2 : p1 = k'
      · rw [if_pos hp2, if_pos hp2]
      · rw [if_neg hp2, if_neg hp2]
        exact ih

theorem dictHas_dictPut_self {α : Type} (d : List (String × α)) (k : String)
    (v : α) : dictHas (dictPut d k v) k = true := by
  simp [dictHas, dictGet_dictPut_self]

theorem dictHas_dictPut_ne {α : Type} (d : List (String × α)) (k k' : String)
    (v : α) (h : k' ≠ k) : dictHas (dictPut d k v) k' = dictHas d k' := by
  simp [dictHas, dictGet_dictPut_ne d k k' v h]


/-- Writing one nested attribute leaves every other nested attribute
unchanged. -/
theorem nestedHas_setNested_ne (dd : DDict) (m n j k : String) (v : TV)
    (h : k ≠ j) : nestedHas (setNested dd m j v) n k = nestedHas dd n k := by
  unfold nestedHas setNested
  by_cases hnm : n = m
  · subst hnm
    rw [dictGet_dictPut_self]
    cases hg : dictGet dd n with
    | none =>
      simp [hg, dictHas_dictPut_ne _ j k v h, dictHas, dictGet, Ne.symm h]
    | some o => simp [hg, dictHas_dictPut_ne _ j k v h]
  · rw [dictGet_dictPut_ne dd m n _ hnm]

/-- The miss component of the required-parameter allocation loop is exactly
the list of required parameters beyond the available token count, in
definition order. -/
theorem requiredAllocGo_missing (order : List String) (dd : DDict)
    (om : List String) (al : List (String × Nat)) (c : Nat)
    (miss : List String) :
    (requiredAllocGo order dd om al c miss).2.2.2.2
      = miss
        ++ ((order.filter (fun n => nestedHas dd n "required")).drop c) := by
  induction order generalizing dd om al c miss with
  | nil => simp [requiredAllocGo]
  | cons n rest ih =>
    by_cases hreq : nestedHas dd n "required" = true
    · have hfc : (n :: rest).filter (fun x => nestedHas dd x "required")
          = n :: rest.filter (fun x => nestedHas dd x "required") := by
        simp [List.filter_cons, hreq]
      by_cases hc : 0 < c
      · have h1 : requiredAllocGo (n :: rest) dd om al c miss
            = requiredAllocGo rest (setNested dd n "present" (.str ""))
              (om.filter (fun x => x ≠ n)) (dictPut al n 1) (c - 1) miss := by
          simp [requiredAllocGo, hreq, hc]
        rw [h1, ih]
        have hfil : rest.filter (fun x =>
              nestedHas (setNested dd n "present" (.str "")) x "required")
            = rest.filter (fun x => nestedHas dd x "required") :=
          List.filter_congr (fun x _ =>
            nestedHas_setNested_ne dd n x "present" "required" (.str "")
              (by decide))
        rw [hfil, hfc]
        congr 1
        cases c with
        | zero => exact absurd hc (by omega)
        | succ c2 => simp
      · have hc0 : c = 0 := by omega
        subst hc0
        have h1 : requiredAllocGo (n :: rest) dd om al 0 miss
            = requiredAllocGo rest dd om al 0 (miss ++ [n]) := by
          simp [requiredAllocGo, hreq]
        rw [h1, ih, hfc]
        simp
    · rw [Bool.not_eq_true] at hreq
      have h1 : requiredAllocGo (n :: rest) dd om al c miss
          = requiredAllocGo rest dd om al c miss := by
        simp [requiredAllocGo, hreq]
      have hfc : (n :: rest).filter (fun x => nestedHas dd x "required")
          = rest.filter (fun x => nestedHas dd x "required") := by
        simp [List.filter_cons, hreq]
      rw [h1, ih, hfc]

/-- A range of the C clamping semantics starting at index zero is a take. -/
theorem listRange_zero_take {α : Type} (l : List α) (e : Int) :
    listRange l 0 e = l.take (e + 1).toNat := by
  simp only [listRange]
  by_cases h0 : (0 : Int) ≥ (l.length : Int)
  · have hl0 : l.length = 0 := by omega
    have hl : l = [] := List.eq_nil_of_length_eq_zero hl0
    subst hl
    simp
  · rw [if_neg h0]
    by_cases he : e ≥ (l.length : Int)
    · rw [if_pos he]
      have hcond : ¬((0:Int) > (l.length:Int) - 1
          ∨ (0:Int) ≥ (l.length:Int)) := by omega
      rw [if_neg hcond]
      have h1 : ((l.length : Int) - 1 - 0 + 1).toNat = l.length := by omega
      have h2 : l.length ≤ (e + 1).toNat := by omega
      rw [h1, show ((0:Int).toNat) = 0 from rfl, List.drop_zero,
        List.take_length, List.take_of_length_le h2]
    · rw [if_neg he]
      by_cases hneg : (0:Int) > e ∨ (0:Int) ≥ (l.length:Int)
      · rw [if_pos hneg]
        have h3 : (e + 1).toNat = 0 := by omega
        rw [h3, List.take_zero]
      · rw [if_neg hneg]
        have h4 : (e - 0 + 1).toNat = (e + 1).toNat := by omega
        rw [h4, show ((0:Int).toNat) = 0 from rfl, List.drop_zero]

/-- Without `-mixed` and `-pfirst`, the switch-phase arguments and the
withheld force arguments concatenate back to the original argument list. -/
theorem forceSplit_append (g : GlobalOpts) (ad : ArgDef)
    (argv : List String) (hm : g.mixed = false) (hp : g.pfirst = false) :
    (forceSplit g ad argv).1 ++ (forceSplit g ad argv).2.1 = argv := by
  simp only [forceSplit, hm, hp, Bool.false_eq_true, not_false_eq_true,
    if_true, if_false]
  rw [listRange_zero_take]
  exact List.take_append_drop _ argv

/-- A range from index one to the last index is the tail of the list. -/
theorem listRange_cons_from_one {α : Type} (x : α) (l : List α) (e : Int)
    (he : e = (l.length : Int)) : listRange (x :: l) 1 e = l := by
  subst he
  by_cases hl : l = []
  · subst hl
    rfl
  · simp only [listRange]
    have hpos : 0 < l.length := List.length_pos.mpr hl
    have h1 : ¬((1:Int) ≥ (((x :: l).length : Nat) : Int)) := by
      rw [List.length_cons]; push_cast; omega
    rw [if_neg h1]
    have h2 : ¬((l.length : Int) ≥ (((x :: l).length : Nat) : Int)) := by
      rw [List.length_cons]; push_cast; omega
    rw [if_neg h2]
    have h3 : ¬((1:Int) > (l.length : Int)
        ∨ (1:Int) ≥ (((x :: l).length : Nat) : Int)) := by
      rw [List.length_cons]; push_cast; omega
    rw [if_neg h3]
    have h4 : ((l.length : Int) - 1 + 1).toNat = l.length := by omega
    rw [h4, show ((1:Int).toNat) = 1 from rfl,
      show (x :: l).drop 1 = l from rfl, List.take_length]

/-- When fewer positional tokens than required parameters are available,
the allocation phase fails with exactly the unfilled required parameters,
in definition order. -/
theorem allocStage_missing (g : GlobalOpts) (st : MatchSt)
    (force orderList : List String) (catchall : Option String)
    (h : (if g.pfirst then force ++ st.params else st.params ++ force).length
      < (orderList.filter
          (fun n => nestedHas st.defDict n "required")).length) :
    allocStage g st force orderList catchall
      = .error (.missingRequiredParameters
          ((orderList.filter
              (fun n => nestedHas st.defDict n "required")).drop
            (if g.pfirst then force ++ st.params
             else st.params ++ force).length)) := by
  have hm := requiredAllocGo_missing orderList st.defDict st.omitted []
    (if g.pfirst then force ++ st.params else st.params ++ force).length []
  rcases hr : requiredAllocGo orderList st.defDict st.omitted []
      (if g.pfirst then force ++ st.params else st.params ++ force).length []
    with ⟨dd1, om1, al1, c1, miss⟩
  rw [hr] at hm
  simp only [List.nil_append] at hm
  have hlen : 0 < miss.length := by
    rw [hm, List.length_drop]
    omega
  have hne : miss.isEmpty = false := by
    cases miss with
    | nil => simp at hlen
    | cons a t => rfl
  simp only [allocStage, hr]
  rw [if_pos (by simp [hne])]
  rw [hm]

/-- Required allocation on the compiled one-required-one-catchall schema. -/
theorem c3_req_alloc_two (m : Nat) :
    requiredAllocGo ["p", "c"] [("p", [("parameter", TV.str ""), ("required", TV.str ""), ("key", TV.str "p")]), ("c", [("parameter", TV.str ""), ("catchall", TV.str ""), ("optional", TV.str ""), ("key", TV.str "c")])] ["p", "c"] [] (m + 1) []
      = ([("p", [("parameter", TV.str ""), ("required", TV.str ""), ("key", TV.str "p"), ("present", TV.str "")]), ("c", [("parameter", TV.str ""), ("catchall", TV.str ""), ("optional", TV.str ""), ("key", TV.str "c")])], ["c"], [("p", 1)], m, []) := by
  have hpos : 0 < m + 1 := by omega
  simp [requiredAllocGo, nestedHas, dictGet, dictHas, setNested, dictPut,
    Option.getD, hpos]

/-- Optional allocation on the compiled one-required-one-catchall schema
allocates nothing: the one non-required parameter is the catchall. -/
theorem c3_opt_alloc_two (m : Nat) :
    optionalAllocGo ["p", "c"] [("p", [("parameter", TV.str ""), ("required", TV.str ""), ("key", TV.str "p"), ("present", TV.str "")]), ("c", [("parameter", TV.str ""), ("catchall", TV.str ""), ("optional", TV.str ""), ("key", TV.str "c")])] ["c"] [("p", 1)] (m + 1)
      = ([("p", [("parameter", TV.str ""), ("required", TV.str ""), ("key", TV.str "p"), ("present", TV.str "")]), ("c", [("parameter", TV.str ""), ("catchall", TV.str ""), ("optional", TV.str ""), ("key", TV.str "c")])], ["c"], [("p", 1)], m + 1) := by
  have hpos : ¬ (m + 1 = 0) := by omega
  simp [optionalAllocGo, nestedHas, dictGet, dictHas, hpos]

/-- Parameter storing on the one-required-one-catchall schema: the required
parameter takes the first token, the catchall the rest in order. -/
theorem c3_store_run (a b : String) (t : List String) :
    storeParams trivialOracles { inlineRes := true } ["p", "c"] 0
      (a :: b :: t) [("p", [("parameter", TV.str ""), ("required", TV.str ""), ("key", TV.str "p"), ("present", TV.str "")]), ("c", [("parameter", TV.str ""), ("catchall", TV.str ""), ("optional", TV.str ""), ("key", TV.str "c")])] [("p", 1), ("c", t.length + 1)] []
    = .ok [("p", TV.str a), ("c", TV.lst (TV.str b :: t.map TV.str))] := by
  have hvP : ∀ v : TV, validateHelper trivialOracles { inlineRes := true }
      "p" [("parameter", TV.str ""), ("required", TV.str ""), ("key", TV.str "p"), ("present", TV.str "")] v false = .ok v := fun v => rfl
  have htP : ∀ v : TV, typeChecker trivialOracles "p" [("parameter", TV.str ""), ("required", TV.str ""), ("key", TV.str "p"), ("present", TV.str "")] v false
      = .ok v := fun v => rfl
  have hvC : ∀ v : TV, validateHelper trivialOracles { inlineRes := true }
      "c" [("parameter", TV.str ""), ("catchall", TV.str ""), ("optional", TV.str ""), ("key", TV.str "c")] v true = .ok v := fun v => rfl
  have htC : ∀ v : TV, typeChecker trivialOracles "c" [("parameter", TV.str ""), ("catchall", TV.str ""), ("optional", TV.str ""), ("key", TV.str "c")] v true
      = .ok v := fun v => rfl
  have hplen : ("p".length != 0) = true := by decide
  have hclen : 0 < "c".length := by decide
  have hrange : listRange (a :: b :: t) 1 ((t.length : Int) + 1) = b :: t :=
    listRange_cons_from_one a (b :: t) _
      (by simp only [List.length_cons]; push_cast; omega)
  simp [storeParams, dictGet, dictHas, dictPut, Option.getD, hvP, htP,
    hvC, htC, hplen, hclen, hrange, TV.render, List.getD_cons_zero]

/-- The match pipeline on the one-required-one-catchall schema, for every
argument list of at least two tokens. -/
theorem c3_match_run (a b : String) (t : List String) :
    matchStage trivialOracles { inlineRes := true } (⟨[("p", [("parameter", TV.str ""), ("required", TV.str ""), ("key", TV.str "p")]), ("c", [("parameter", TV.str ""), ("catchall", TV.str ""), ("optional", TV.str ""), ("key", TV.str "c")])], [], ["p", "c"], [], [], ["p", "c"], some "c"⟩ : ArgDef) (a :: b :: t)
    = .ok (.inlineResult
        [("p", TV.str a), ("c", TV.lst (TV.str b :: t.map TV.str))]) := by
  simp only [matchStage, passDummy, pfirstReorder, Bool.false_eq_true,
    if_false]
  have happ := forceSplit_append { inlineRes := true } (⟨[("p", [("parameter", TV.str ""), ("required", TV.str ""), ("key", TV.str "p")]), ("c", [("parameter", TV.str ""), ("catchall", TV.str ""), ("optional", TV.str ""), ("key", TV.str "c")])], [], ["p", "c"], [], [], ["p", "c"], some "c"⟩ : ArgDef)
    (a :: b :: t) rfl rfl
  set fs := forceSplit { inlineRes := true } (⟨[("p", [("parameter", TV.str ""), ("required", TV.str ""), ("key", TV.str "p")]), ("c", [("parameter", TV.str ""), ("catchall", TV.str ""), ("optional", TV.str ""), ("key", TV.str "c")])], [], ["p", "c"], [], [], ["p", "c"], some "c"⟩ : ArgDef) (a :: b :: t) with hfs
  clear_value fs
  obtain ⟨sArgv, force, endIdx⟩ := fs
  simp only [] at happ
  have hsw : switchStage trivialOracles { inlineRes := true } (⟨[("p", [("parameter", TV.str ""), ("required", TV.str ""), ("key", TV.str "p")]), ("c", [("parameter", TV.str ""), ("catchall", TV.str ""), ("optional", TV.str ""), ("key", TV.str "c")])], [], ["p", "c"], [], [], ["p", "c"], some "c"⟩ : ArgDef)
      sArgv endIdx = .ok ⟨[], sArgv, [], [("p", [("parameter", TV.str ""), ("required", TV.str ""), ("key", TV.str "p")]), ("c", [("parameter", TV.str ""), ("catchall", TV.str ""), ("optional", TV.str ""), ("key", TV.str "c")])], ["p", "c"]⟩ := rfl
  simp only [hsw]
  have halloc : allocStage { inlineRes := true }
      ⟨[], sArgv, [], [("p", [("parameter", TV.str ""), ("required", TV.str ""), ("key", TV.str "p")]), ("c", [("parameter", TV.str ""), ("catchall", TV.str ""), ("optional", TV.str ""), ("key", TV.str "c")])], ["p", "c"]⟩ force ["p", "c"] (some "c")
      = .ok ⟨[("p", [("parameter", TV.str ""), ("required", TV.str ""), ("key", TV.str "p"), ("present", TV.str "")]), ("c", [("parameter", TV.str ""), ("catchall", TV.str ""), ("optional", TV.str ""), ("key", TV.str "c")])], [], [], [("p", 1), ("c", t.length + 1)], ["p", "c"],
          a :: b :: t⟩ := by
    simp only [allocStage, Bool.false_eq_true, if_false]
    rw [happ]
    simp only [List.length_cons]
    rw [c3_req_alloc_two (t.length + 1)]
    have hpos : 0 < t.length + 1 := by omega
    simp [c3_opt_alloc_two, hpos, dictGet, dictPut, Option.getD]
  simp only [halloc]
  have hrf : requireForbidSweep [("p", [("parameter", TV.str ""), ("required", TV.str ""), ("key", TV.str "p"), ("present", TV.str "")]), ("c", [("parameter", TV.str ""), ("catchall", TV.str ""), ("optional", TV.str ""), ("key", TV.str "c")])] = none := rfl
  have hal : allowSweep [("p", [("parameter", TV.str ""), ("required", TV.str ""), ("key", TV.str "p"), ("present", TV.str "")]), ("c", [("parameter", TV.str ""), ("catchall", TV.str ""), ("optional", TV.str ""), ("key", TV.str "c")])] = none := rfl
  have hnp : normalizePassDefaults { inlineRes := true } [("p", [("parameter", TV.str ""), ("required", TV.str ""), ("key", TV.str "p"), ("present", TV.str "")]), ("c", [("parameter", TV.str ""), ("catchall", TV.str ""), ("optional", TV.str ""), ("key", TV.str "c")])] [] []
      = [] := rfl
  simp only [hrf, hal, hnp]
  rw [c3_store_run a b t]
  have hfd : fillDefaults [("p", [("parameter", TV.str ""), ("required", TV.str ""), ("key", TV.str "p"), ("present", TV.str "")]), ("c", [("parameter", TV.str ""), ("catchall", TV.str ""), ("optional", TV.str ""), ("key", TV.str "c")])]
      [("p", TV.str a), ("c", TV.lst (TV.str b :: t.map TV.str))]
      = [("p", TV.str a), ("c", TV.lst (TV.str b :: t.map TV.str))] := rfl
  have hbo : buildOutput { inlineRes := true } [("p", [("parameter", TV.str ""), ("required", TV.str ""), ("key", TV.str "p"), ("present", TV.str "")]), ("c", [("parameter", TV.str ""), ("catchall", TV.str ""), ("optional", TV.str ""), ("key", TV.str "c")])] []
      [] [("p", TV.str a), ("c", TV.lst (TV.str b :: t.map TV.str))]
      = .inlineResult
          [("p", TV.str a), ("c", TV.lst (TV.str b :: t.map TV.str))] := rfl
  simp only [hfd, hbo]

/-- The per-invocation shared-key rewrite on a two-element definition: each
element receives its own name as value and the other element in its forbid
list, with every surrounding field untouched. -/
theorem postCompile_sharedKey_pair (g : GlobalOpts) (a b k : String)
    (oa ob : ODict) (al : List (String × String)) (ol sw : List String)
    (uv : List (String × String)) (om : List String) (ca : Option String)
    (hab : a ≠ b)
    (hkeyA : dictGet oa "key" = some (TV.str k))
    (hkeyB : dictGet ob "key" = some (TV.str k))
    (hvalA : dictGet oa "value" = none)
    (hvalB : dictGet ob "value" = none)
    (hparA : dictGet oa "parameter" = none)
    (hparB : dictGet ob "parameter" = none)
    (hargA : dictGet oa "argument" = none)
    (hargB : dictGet ob "argument" = none)
    (hcatA : dictGet oa "catchall" = none)
    (hcatB : dictGet ob "catchall" = none)
    (hforA : dictGet oa "forbid" = none)
    (hforB : dictGet ob "forbid" = none)
    (hreqA : dictGet oa "require" = none)
    (hreqB : dictGet ob "require" = none)
    (hallA : dictGet oa "allow" = none)
    (hallB : dictGet ob "allow" = none)
    (hdefB : dictGet ob "default" = none) :
    postCompile g ⟨[(a, oa), (b, ob)], al, ol, sw, uv, om, ca⟩
      = .ok ⟨[(a, dictPut (dictPut oa "value" (TV.str a)) "forbid" (TV.lst [TV.str b])), (b, dictPut (dictPut ob "forbid" (TV.lst [TV.str a])) "value" (TV.str b))], al, ol, sw, uv, om, ca⟩ := by
  have hba : b ≠ a := Ne.symm hab
  have hstepA : postCompileStep g [a, b] [(a, oa), (b, ob)] a
      = .ok [(a, dictPut oa "value" (TV.str a)), (b, dictPut ob "forbid" (TV.lst [TV.str a]))] := by
    have hri : reciprocalInject g a oa [(a, oa), (b, ob)]
        = [(a, oa), (b, ob)] := by
      simp [reciprocalInject, hreqA]
    simp [postCompileStep, verifyRefs, constraintNames, sharedKeyGo,
      dictGet, dictHas, dictPut, dictLappendElem, hri, hab, hba,
      hkeyA, hkeyB, hvalA, hvalB, hparA, hparB, hargA, hargB,
      hcatA, hcatB, hforA, hforB, hreqA, hreqB, hallA, hallB, hdefB,
      TV.render, TV.asList]
  have hob1req : dictGet (dictPut ob "forbid" (TV.lst [TV.str a])) "require" = none := by
    rw [dictGet_dictPut_ne _ _ _ _ (by decide)]; exact hreqB
  have hob1allow : dictGet (dictPut ob "forbid" (TV.lst [TV.str a])) "allow" = none := by
    rw [dictGet_dictPut_ne _ _ _ _ (by decide)]; exact hallB
  have hob1key : dictGet (dictPut ob "forbid" (TV.lst [TV.str a])) "key" = some (TV.str k) := by
    rw [dictGet_dictPut_ne _ _ _ _ (by decide)]; exact hkeyB
  have hob1param : dictGet (dictPut ob "forbid" (TV.lst [TV.str a])) "parameter" = none := by
    rw [dictGet_dictPut_ne _ _ _ _ (by decide)]; exact hparB
  have hob1arg : dictGet (dictPut ob "forbid" (TV.lst [TV.str a])) "argument" = none := by
    rw [dictGet_dictPut_ne _ _ _ _ (by decide)]; exact hargB
  have hob1catch : dictGet (dictPut ob "forbid" (TV.lst [TV.str a])) "catchall" = none := by
    rw [dictGet_dictPut_ne _ _ _ _ (by decide)]; exact hcatB
  have hob1def : dictGet (dictPut ob "forbid" (TV.lst [TV.str a])) "default" = none := by
    rw [dictGet_dictPut_ne _ _ _ _ (by decide)]; exact hdefB
  have hob1val : dictGet (dictPut ob "forbid" (TV.lst [TV.str a])) "value" = none := by
    rw [dictGet_dictPut_ne _ _ _ _ (by decide)]; exact hvalB
  have hob1for : dictGet (dictPut ob "forbid" (TV.lst [TV.str a])) "forbid" = some (TV.lst [TV.str a]) :=
    dictGet_dictPut_self _ _ _
  have hoa1key : dictGet (dictPut oa "value" (TV.str a)) "key" = some (TV.str k) := by
    rw [dictGet_dictPut_ne _ _ _ _ (by decide)]; exact hkeyA
  have hoa1for : dictGet (dictPut oa "value" (TV.str a)) "forbid" = none := by
    rw [dictGet_dictPut_ne _ _ _ _ (by decide)]; exact hforA
  have hstepB : postCompileStep g [a, b] [(a, dictPut oa "value" (TV.str a)), (b, dictPut ob "forbid" (TV.lst [TV.str a]))] b
      = .ok [(a, dictPut (dictPut oa "value" (TV.str a)) "forbid" (TV.lst [TV.str b])), (b, dictPut (dictPut ob "forbid" (TV.lst [TV.str a])) "value" (TV.str b))] := by
    have hri2 : reciprocalInject g b (dictPut ob "forbid" (TV.lst [TV.str a])) [(a, dictPut oa "value" (TV.str a)), (b, dictPut ob "forbid" (TV.lst [TV.str a]))]
        = [(a, dictPut oa "value" (TV.str a)), (b, dictPut ob "forbid" (TV.lst [TV.str a]))] := by
      simp [reciprocalInject, hob1req]
    simp [postCompileStep, verifyRefs, constraintNames, sharedKeyGo,
      dictGet, dictHas, dictPut, dictLappendElem, hri2, hab, hba,
      hob1req, hob1allow, hob1key, hob1param, hob1arg, hob1catch,
      hob1def, hob1val, hob1for, hoa1key, hoa1for,
      TV.render, TV.asList, TV.asStrList]
  simp only [postCompile, postCompileGo, dictKeys, List.map_cons,
    List.map_nil, hstepA, hstepB]


/-! Claim theorems. -/

/-- Claim C1, counterexample: with the definition list exactly as the claim
writes it, `{flag -boolean} {name -required}`, the element `flag` carries no
leading dash, so the shorthand parser classifies it as a parameter, and
`-parameter` conflicts with `-boolean` in the conflict table; the call fails
at schema compilation instead of producing the claimed result map
`{flag 1 name val}`. -/
theorem c1_flag_scenario_cex :
    argparseRun trivialOracles { inlineRes := true }
      (.defAndArgs [[TV.str "flag", TV.str "-boolean"],
        [TV.str "name", TV.str "-required"]] ["-flag", "val"]) none
    = .error (.conflict "parameter" "boolean") := rfl

/-- Claim C1, amended: with the switch spelled `-flag` in its definition
(the leading dash marking a switch, which the claimed behavior requires),
the scenario holds: the definition `{-flag -boolean} {name -required}` with
arguments `{-flag val}` parses without a too-many-arguments error, the
boolean switch `-flag` consumes no argument and is recorded with value 1,
the token `val` is allocated to the required parameter `name`, and the
result map is `flag 1 name val`. -/
theorem c1_flag_scenario :
    argparseRun trivialOracles { inlineRes := true }
      (.defAndArgs [[TV.str "-flag", TV.str "-boolean"],
        [TV.str "name", TV.str "-required"]] ["-flag", "val"]) none
    = .ok (.inlineResult [("flag", .str "1"), ("name", .str "val")]) := rfl

/-- Claim C5, counterexample: a switch declaring none of
argument, default, value, required, upvar is NOT rewritten to
`default=0, value=1` when the global `-boolean` option is absent; the
element `-flag` compiles with neither a default nor a value.  The claim
omits the global `-boolean` requirement of the source condition. -/
theorem c5_boolean_normalize_cex :
    (parseElementDefinitions {} [[TV.str "-flag"]]).map
      (fun ad => (nestedGet ad.defDict "flag" "default",
                  nestedGet ad.defDict "flag" "value"))
    = .ok (none, none) := rfl

/-- Claim C5, amended: for every switch element that either declares
`-boolean` explicitly, or, under the global `-boolean` option, has none of
the explicit attributes argument, default, value, required, upvar, the
boolean normalization step rewrites the element to carry default 0 and
value 1; the condition is stated on attribute membership only, so it is
independent of the definition order of the other flags. -/
theorem c5_boolean_normalize (gBool : Bool) (o : ODict)
    (h : (gBool = true ∧ dictHas o "switch" = true
          ∧ dictHas o "argument" = false ∧ dictHas o "upvar" = false
          ∧ dictHas o "default" = false ∧ dictHas o "value" = false
          ∧ dictHas o "required" = false)
         ∨ dictHas o "boolean" = true) :
    dictGet (booleanNormalize gBool o) "default" = some (.str "0")
    ∧ dictGet (booleanNormalize gBool o) "value" = some (.str "1") := by
  have hcond : ((gBool && dictHas o "switch" && ! dictHas o "argument"
        && ! dictHas o "upvar" && ! dictHas o "default"
        && ! dictHas o "value" && ! dictHas o "required")
      || dictHas o "boolean") = true := by
    rcases h with ⟨h1, h2, h3, h4, h5, h6, h7⟩ | h8
    · simp [h1, h2, h3, h4, h5, h6, h7]
    · simp [h8]
  unfold booleanNormalize
  rw [if_pos hcond]
  constructor
  · rw [dictGet_dictPut_ne _ "value" "default" _ (by decide),
      dictGet_dictPut_self]
  · rw [dictGet_dictPut_self]

/-- Witness for claim C5: instantiating the amended normalization theorem at
a concrete dictionary with an explicit boolean attribute. -/
theorem c5_boolean_normalize_witness :
    dictGet (booleanNormalize false [("switch", TV.str ""),
      ("boolean", TV.str "")]) "default" = some (.str "0")
    ∧ dictGet (booleanNormalize false [("switch", TV.str ""),
      ("boolean", TV.str "")]) "value" = some (.str "1") :=
  c5_boolean_normalize false [("switch", TV.str ""), ("boolean", TV.str "")]
    (Or.inr rfl)

/-- Claim C6, counterexample: the shorthand grammar
`^(?:(-)(?:(.*)\|)?)?(\w[\w-]*)([=?!*^]*)$` has no colon, so the definition
`{-f|full:force!}` of the claim is rejected as a bad element shorthand at
compile time; no alias resolution or parse happens at all. -/
theorem c6_alias_shorthand_cex :
    argparseRun trivialOracles { inlineRes := true }
      (.defAndArgs [[TV.str "-f|full:force!"]] ["-full"]) none
    = .error (.badElementShorthand "-f|full:force!") := rfl

/-- Claim C6, amended: the shorthand joins aliases and the canonical name
with bars, `{-f|full|force!}`; compilation accepts it and links both `f` and
`full` to the canonical switch name `force`.  Because the required flag
implies an argument for switches, the switch must be given a value, so with
arguments `{-full 1}` the alias `-full` resolves to `force` and the
required switch `force` is present with value 1 in the result map. -/
theorem c6_alias_shorthand :
    (parseElementDefinitions {} [[TV.str "-f|full|force!"]]).map
      (fun ad => ad.aliasesDict) = .ok [("f", "force"), ("full", "force")]
    ∧ argparseRun trivialOracles { inlineRes := true }
      (.defAndArgs [[TV.str "-f|full|force!"]] ["-full", "1"]) none
    = .ok (.inlineResult [("force", .str "1")]) := ⟨by rfl, by rfl⟩

/-- Claim C7: schema compilation is memoized per canonical signature
(definition rendering plus global-option bitset and value-bearing flag
arguments).  First conjunct: whenever the cache already holds the signature,
the call is served from the cache with no compilation and an unchanged
cache, hence at most one compilation per distinct signature over the cache
lifetime.  Second conjunct: after any successful call, a repeated call with
the same pair returns the structurally identical definition, reports no
compilation, and leaves the cache unchanged. -/
theorem c7_cache_memoization :
    (∀ (cache : List (String × ArgDef)) (g : GlobalOpts)
       (defn : List (List TV)) (ad : ArgDef),
       dictGet cache (signature g defn) = some ad →
       getOrCompile cache g defn = .ok (ad, cache, false))
    ∧ (∀ (cache : List (String × ArgDef)) (g : GlobalOpts)
       (defn : List (List TV)) (ad : ArgDef) (c1 : List (String × ArgDef))
       (flag : Bool),
       getOrCompile cache g defn = .ok (ad, c1, flag) →
       getOrCompile c1 g defn = .ok (ad, c1, false)) := by
  constructor
  · intro cache g defn ad h
    simp [getOrCompile, h]
  · intro cache g defn ad c1 flag h
    simp only [getOrCompile] at h ⊢
    cases hc : dictGet cache (signature g defn) with
    | some a =>
      rw [hc] at h
      simp only [Except.ok.injEq, Prod.mk.injEq] at h
      obtain ⟨rfl, rfl, -⟩ := h
      simp [hc]
    | none =>
      rw [hc] at h
      cases hp : parseElementDefinitions g defn with
      | error e =>
        rw [hp] at h
        exact absurd h (by simp)
      | ok a =>
        rw [hp] at h
        simp only [Except.ok.injEq, Prod.mk.injEq] at h
        obtain ⟨rfl, rfl, -⟩ := h
        simp [dictGet_dictPut_self]

/-- First compilation of the one-switch definition `{-a}` against an empty
cache: it compiles, caches under the signature, and reports a compilation. -/
theorem c7_first_run_concrete :
    getOrCompile [] {} [[TV.str "-a"]]
    = .ok (⟨[("a", [("switch", TV.str ""), ("key", TV.str "a")])], [], [],
        ["-a"], [], ["a"], none⟩,
      [("-a 0:",
        ⟨[("a", [("switch", TV.str ""), ("key", TV.str "a")])], [], [],
          ["-a"], [], ["a"], none⟩)], true) := rfl

/-- Witness for claim C7: the theorem applied to the concrete first run of
the one-switch definition `{-a}` shows the second call is served from the
unchanged cache without recompiling. -/
theorem c7_cache_memoization_witness :
    getOrCompile [("-a 0:",
      ⟨[("a", [("switch", TV.str ""), ("key", TV.str "a")])], [], [],
        ["-a"], [], ["a"], none⟩)] {} [[TV.str "-a"]]
    = .ok (⟨[("a", [("switch", TV.str ""), ("key", TV.str "a")])], [], [],
        ["-a"], [], ["a"], none⟩,
      [("-a 0:",
        ⟨[("a", [("switch", TV.str ""), ("key", TV.str "a")])], [], [],
          ["-a"], [], ["a"], none⟩)], false) :=
  c7_cache_memoization.2 [] {} [[TV.str "-a"]]
    ⟨[("a", [("switch", TV.str ""), ("key", TV.str "a")])], [], [],
      ["-a"], [], ["a"], none⟩
    [("-a 0:",
      ⟨[("a", [("switch", TV.str ""), ("key", TV.str "a")])], [], [],
        ["-a"], [], ["a"], none⟩)] true c7_first_run_concrete

/-- Claim C8, counterexample: an entry whose first token is the number sign
but whose length exceeds one is NOT processed as an ordinary element
definition — it is silently dropped by the pre-processing loop.  The
definition list `{{# x}}` compiles to an empty schema and the call succeeds,
whereas processing `{# x}` as an element definition would fail on the
unknown option `x`. -/
theorem c8_comment_cex :
    argparseRun trivialOracles { inlineRes := true }
      (.defAndArgs [[TV.str "#", TV.str "x"]] []) none
    = .ok (.inlineResult [])
    ∧ parseElementDefinitions { inlineRes := true }
      [[TV.str "#", TV.str "x"]] = .error (.badOption "x") := ⟨rfl, rfl⟩

/-- Claim C8, amended: in the pre-processing loop, an entry that is exactly
the single token number sign arms the skip flag (first conjunct); with the
flag armed, the next entry whose first token is not the number sign is
skipped and the flag disarms (second conjunct); and an entry whose first
token is the number sign with length greater than one is silently dropped,
leaving the flag unchanged — it is neither a comment marker nor processed
as an ordinary element definition (third conjunct). -/
theorem c8_comment_preprocessing :
    (∀ (rest : List (List TV)) (flag : Bool),
      preprocessGo ([TV.str "#"] :: rest) flag = preprocessGo rest true)
    ∧ (∀ (e0 : TV) (es : List TV) (rest : List (List TV)),
      e0.render ≠ "#" →
      preprocessGo ((e0 :: es) :: rest) true = preprocessGo rest false)
    ∧ (∀ (e0 : TV) (es : List TV) (rest : List (List TV)) (flag : Bool),
      e0.render = "#" → es ≠ [] →
      preprocessGo ((e0 :: es) :: rest) flag = preprocessGo rest flag) := by
  refine ⟨fun rest flag => ?_, fun e0 es rest h => ?_,
    fun e0 es rest flag h hes => ?_⟩
  · simp [preprocessGo, TV.render]
  · simp [preprocessGo, h]
  · cases es with
    | nil => exact absurd rfl hes
    | cons e1 es2 => simp [preprocessGo, h]

/-- Witness for claim C8: the three conjuncts of the pre-processing theorem
instantiated on concrete entries — a lone number sign arms the flag, the
armed flag skips the following ordinary entry, and a two-token entry
starting with the number sign is dropped with the flag untouched. -/
theorem c8_comment_preprocessing_witness :
    preprocessGo ([TV.str "#"] :: [[TV.str "x"]]) false
      = preprocessGo [[TV.str "x"]] true
    ∧ preprocessGo [[TV.str "x"]] true = preprocessGo [] false
    ∧ preprocessGo ([TV.str "#", TV.str "y"] :: [[TV.str "#"]]) false
      = preprocessGo [[TV.str "#"]] false :=
  ⟨c8_comment_preprocessing.1 [[TV.str "x"]] false,
   c8_comment_preprocessing.2.1 (TV.str "x") [] [] (by decide),
   c8_comment_preprocessing.2.2 (TV.str "#") [TV.str "y"] [[TV.str "#"]]
     false rfl (List.cons_ne_nil _ _)⟩

/-- Claim C2, counterexample: with both an argument-count error (three
arguments after the global options) and a schema compile error (the
definition `{flag -boolean}` fails with a parameter and boolean conflict)
simultaneously diagnosable, the call reports the argument-count error — the
claimed order, schema compile errors before argument-count errors, is
reversed in the code. -/
theorem c2_error_order_cex :
    argparseRun trivialOracles {}
      (.extraArgs [[TV.str "flag", TV.str "-boolean"]] ["x"] ["y"]) none
    = .error .tooManyArgsTop
    ∧ schemaStage {} [[TV.str "flag", TV.str "-boolean"]]
    = .error (.conflict "parameter" "boolean") := ⟨by rfl, by rfl⟩

/-- Claim C2, amended: exactly one error is reported per invocation (the run
returns a single `Err` and no partial result), and the first failure in the
fixed pipeline order wins: argument-count (invocation) errors, then schema
compile errors, then switch-phase errors in left-to-right token order, then
missing required switch(es), then missing required parameter(s), then too
many arguments, then require/forbid violations, then allow violations.
Conjuncts one and two: the invocation-shape and schema stages abort the run
with their own error regardless of later stages.  Conjuncts three to five:
a switch-phase error aborts, the loop error preceding the
missing-required-switch check, which fires next.  Conjunct six: an
allocation error aborts the run.  Conjuncts seven and eight: inside
allocation, missing required parameters are reported before too many
arguments.  Conjuncts nine and ten: the require/forbid sweep errors come
next, and the allow sweep errors last. -/
theorem c2_error_order :
    (∀ (o : Oracles) (g : GlobalOpts) (tail : TailForm)
       (ca : Option (List String)) (e : Err),
       resolveTail tail ca = .error e →
       argparseRun o g tail ca = .error e)
    ∧ (∀ (o : Oracles) (g : GlobalOpts) (tail : TailForm)
       (ca : Option (List String)) (d : List (List TV)) (a : List String)
       (e : Err),
       resolveTail tail ca = .ok (d, a) →
       schemaStage g d = .error e →
       argparseRun o g tail ca = .error e)
    ∧ (∀ (o : Oracles) (g : GlobalOpts) (tail : TailForm)
       (ca : Option (List String)) (d : List (List TV)) (a : List String)
       (ad ad1 : ArgDef) (sArgv force : List String) (endIdx : Int)
       (e : Err),
       resolveTail tail ca = .ok (d, a) →
       schemaStage g d = .ok ad →
       helpTriggered g a = false →
       pfirstReorder g (passDummy g ad) = ad1 →
       forceSplit g ad1 a = (sArgv, force, endIdx) →
       switchStage o g ad1 sArgv endIdx = .error e →
       argparseRun o g tail ca = .error e)
    ∧ (∀ (o : Oracles) (g : GlobalOpts) (ad1 : ArgDef)
       (sArgv : List String) (endIdx : Int) (e : Err),
       ad1.switchesList ≠ [] →
       switchLoop o g ad1.aliasesDict ad1.switchesList endIdx
         (sArgv.length + implyBudget ad1.defDict + 1)
         ⟨sArgv, [], [], ad1.defDict, ad1.omitted⟩ = .error e →
       switchStage o g ad1 sArgv endIdx = .error e)
    ∧ (∀ (o : Oracles) (g : GlobalOpts) (ad1 : ArgDef)
       (sArgv : List String) (endIdx : Int) (st : MatchSt),
       ad1.switchesList ≠ [] →
       switchLoop o g ad1.aliasesDict ad1.switchesList endIdx
         (sArgv.length + implyBudget ad1.defDict + 1)
         ⟨sArgv, [], [], ad1.defDict, ad1.omitted⟩ = .ok st →
       missingSwitchList st.defDict ≠ [] →
       switchStage o g ad1 sArgv endIdx
         = .error (.missingRequiredSwitches
             (sortStrings (missingSwitchList st.defDict))))
    ∧ (∀ (o : Oracles) (g : GlobalOpts) (tail : TailForm)
       (ca : Option (List String)) (d : List (List TV)) (a : List String)
       (ad ad1 : ArgDef) (sArgv force : List String) (endIdx : Int)
       (st : MatchSt) (e : Err),
       resolveTail tail ca = .ok (d, a) →
       schemaStage g d = .ok ad →
       helpTriggered g a = false →
       pfirstReorder g (passDummy g ad) = ad1 →
       forceSplit g ad1 a = (sArgv, force, endIdx) →
       switchStage o g ad1 sArgv endIdx = .ok st →
       allocStage g st force ad1.orderList ad1.catchall = .error e →
       argparseRun o g tail ca = .error e)
    ∧ (∀ (g : GlobalOpts) (st : MatchSt) (force orderList : List String)
       (catchall : Option String) (dd1 : DDict) (om1 : List String)
       (al1 : List (String × Nat)) (c1 : Nat) (miss : List String),
       requiredAllocGo orderList st.defDict st.omitted []
         (if g.pfirst then force ++ st.params
          else st.params ++ force).length []
         = (dd1, om1, al1, c1, miss) →
       miss ≠ [] →
       allocStage g st force orderList catchall
         = .error (.missingRequiredParameters miss))
    ∧ (∀ (g : GlobalOpts) (st : MatchSt) (force orderList : List String)
       (dd1 dd2 : DDict) (om1 om2 : List String)
       (al1 al2 : List (String × Nat)) (c1 c2 : Nat),
       requiredAllocGo orderList st.defDict st.omitted []
         (if g.pfirst then force ++ st.params
          else st.params ++ force).length []
         = (dd1, om1, al1, c1, []) →
       (if c1 > 0 then optionalAllocGo orderList dd1 om1 al1 c1
        else (dd1, om1, al1, c1)) = (dd2, om2, al2, c2) →
       c2 > 0 →
       dictHas dd2 "" = false →
       allocStage g st force orderList none = .error .tooManyArguments)
    ∧ (∀ (o : Oracles) (g : GlobalOpts) (tail : TailForm)
       (ca : Option (List String)) (d : List (List TV)) (a : List String)
       (ad ad1 : ArgDef) (sArgv force : List String) (endIdx : Int)
       (st : MatchSt) (aOut : AllocOut) (e : Err),
       resolveTail tail ca = .ok (d, a) →
       schemaStage g d = .ok ad →
       helpTriggered g a = false →
       pfirstReorder g (passDummy g ad) = ad1 →
       forceSplit g ad1 a = (sArgv, force, endIdx) →
       switchStage o g ad1 sArgv endIdx = .ok st →
       allocStage g st force ad1.orderList ad1.catchall = .ok aOut →
       requireForbidSweep aOut.defDict = some e →
       argparseRun o g tail ca = .error e)
    ∧ (∀ (o : Oracles) (g : GlobalOpts) (tail : TailForm)
       (ca : Option (List String)) (d : List (List TV)) (a : List String)
       (ad ad1 : ArgDef) (sArgv force : List String) (endIdx : Int)
       (st : MatchSt) (aOut : AllocOut) (e : Err),
       resolveTail tail ca = .ok (d, a) →
       schemaStage g d = .ok ad →
       helpTriggered g a = false →
       pfirstReorder g (passDummy g ad) = ad1 →
       forceSplit g ad1 a = (sArgv, force, endIdx) →
       switchStage o g ad1 sArgv endIdx = .ok st →
       allocStage g st force ad1.orderList ad1.catchall = .ok aOut →
       requireForbidSweep aOut.defDict = none →
       allowSweep aOut.defDict = some e →
       argparseRun o g tail ca = .error e) := by
  refine ⟨?_, ?_, ?_, ?_, ?_, ?_, ?_, ?_, ?_, ?_⟩
  · intro o g tail ca e h
    simp only [argparseRun, h]
  · intro o g tail ca d a e h1 h2
    simp only [argparseRun, h1, h2]
  · intro o g tail ca d a ad ad1 sArgv force endIdx e h1 h2 h3 h4 h5 h6
    simp only [argparseRun, h1, h2, h3, Bool.false_eq_true, if_false,
      matchStage, h4, h5, h6]
  · intro o g ad1 sArgv endIdx e hne h
    have hb : ad1.switchesList.isEmpty = false := by
      cases hl : ad1.switchesList with
      | nil => exact absurd hl hne
      | cons x xs => rfl
    simp only [switchStage, hb, Bool.false_eq_true, if_false, h]
  · intro o g ad1 sArgv endIdx st hne h hm
    have hb : ad1.switchesList.isEmpty = false := by
      cases hl : ad1.switchesList with
      | nil => exact absurd hl hne
      | cons x xs => rfl
    have hb2 : (missingSwitchList st.defDict).isEmpty = false := by
      cases hl : missingSwitchList st.defDict with
      | nil => exact absurd hl hm
      | cons x xs => rfl
    simp only [switchStage, hb, Bool.false_eq_true, if_false, h, hb2]
  · intro o g tail ca d a ad ad1 sArgv force endIdx st e h1 h2 h3 h4 h5 h6 h7
    simp only [argparseRun, h1, h2, h3, Bool.false_eq_true, if_false,
      matchStage, h4, h5, h6, h7]
  · intro g st force orderList catchall dd1 om1 al1 c1 miss hr hm
    have hb : miss.isEmpty = false := by
      cases hl : miss with
      | nil => exact absurd hl hm
      | cons x xs => rfl
    simp only [allocStage, hr, hb, Bool.not_false, if_true, Bool.false_eq_true,
      not_false_eq_true, if_pos]
  · intro g st force orderList dd1 dd2 om1 om2 al1 al2 c1 c2 hr ho hc hdd
    simp only [allocStage, hr, ho, List.isEmpty_nil, not_true_eq_false,
      Bool.true_eq_false, if_false, hdd, hc, if_true, Bool.false_eq_true,
      if_pos]
  · intro o g tail ca d a ad ad1 sArgv force endIdx st aOut e h1 h2 h3 h4 h5
      h6 h7 h8
    simp only [argparseRun, h1, h2, h3, Bool.false_eq_true, if_false,
      matchStage, h4, h5, h6, h7, h8]
  · intro o g tail ca d a ad ad1 sArgv force endIdx st aOut e h1 h2 h3 h4 h5
      h6 h7 h8 h9
    simp only [argparseRun, h1, h2, h3, Bool.false_eq_true, if_false,
      matchStage, h4, h5, h6, h7, h8, h9]

/-- Witness for claim C2: the first conjunct applied to a call with no
definition argument, and the second conjunct applied to a call whose
definition contains an unknown element option. -/
theorem c2_error_order_witness :
    argparseRun trivialOracles {} .noArgs none = .error .missingDefinition
    ∧ argparseRun trivialOracles {}
      (.defAndArgs [[TV.str "x", TV.str "-bogus"]] []) none
    = .error (.badOption "-bogus") :=
  ⟨c2_error_order.1 trivialOracles {} .noArgs none .missingDefinition rfl,
   c2_error_order.2.1 trivialOracles {}
     (.defAndArgs [[TV.str "x", TV.str "-bogus"]] []) none
     [[TV.str "x", TV.str "-bogus"]] [] (.badOption "-bogus") rfl (by rfl)⟩

/-- Claim C9: an optional switch that takes an argument stores, when given
its argument, not the bare validated value under its output key but a
two-element list of the empty list and the validated value.  Shown
end-to-end for the optional argument-taking switch `-o?` and every argument
value. -/
theorem c9_optional_switch_pair (v : String) :
    argparseRun trivialOracles { inlineRes := true }
      (.defAndArgs [[TV.str "-o?"]] ["-o", v]) none
    = .ok (.inlineResult [("o", .lst [.lst [], .str v])]) := rfl

/-- Claim C10: whenever an invocation fails — in particular with any match,
validation, or constraint error — no caller variable is set, unset, or
upvar-linked: the store semantics leaves the variable store untouched and
produces no binding action.  In the model, as in the source, all binding
work happens after every check has succeeded, so an error reaches the
caller with the store exactly as it was. -/
theorem c10_no_binding_on_error (oracle : Oracles) (g : GlobalOpts)
    (tail : TailForm) (ca : Option (List String))
    (store : List (String × TV)) (e : Err)
    (h : argparseRun oracle g tail ca = .error e) :
    runOnStore oracle g tail ca store = (store, .error e) := by
  unfold runOnStore
  rw [h]

/-- Witness for claim C10: a failing invocation (no definition argument at
all) leaves a nonempty concrete store unchanged. -/
theorem c10_no_binding_on_error_witness :
    runOnStore trivialOracles {} .noArgs none [("x", TV.str "y")]
    = ([("x", TV.str "y")], .error .missingDefinition) :=
  c10_no_binding_on_error trivialOracles {} .noArgs none
    [("x", TV.str "y")] .missingDefinition rfl


/-- Claim C3: positional tokens are allocated to parameters in schema
order.  Conjunct one, in full generality over the model state: when fewer
tokens than required parameters are available, the allocation phase fails
with the missing required parameters error, listing exactly the unfilled
required parameters in definition order.  Conjunct two: for the schema of
one required parameter `p` and one catchall `c*`, every invocation with at
least two tokens gives `p` the first token and `c` all remaining tokens in
original order.  Conjunct three: with no catchall but a global pass-through
key, the excess tokens go to the pass key.  Conjunct four: with neither, the
call fails with too many arguments.  Conjunct five: optional non-catchall
parameters receive one token each, in order, while tokens remain. -/
theorem c3_positional_allocation :
    (∀ (g : GlobalOpts) (st : MatchSt) (force orderList : List String)
        (catchall : Option String),
      (if g.pfirst then force ++ st.params else st.params ++ force).length
          < (orderList.filter
              (fun n => nestedHas st.defDict n "required")).length →
      allocStage g st force orderList catchall
        = .error (.missingRequiredParameters
            ((orderList.filter
                (fun n => nestedHas st.defDict n "required")).drop
              (if g.pfirst then force ++ st.params
               else st.params ++ force).length)))
    ∧ (∀ (a b : String) (t : List String),
        argparseRun trivialOracles { inlineRes := true }
          (.defAndArgs [[TV.str "p"], [TV.str "c*"]] (a :: b :: t)) none
        = .ok (.inlineResult
            [("p", TV.str a), ("c", TV.lst (TV.str b :: t.map TV.str))]))
    ∧ argparseRun trivialOracles { inlineRes := true, pass := some "rest" }
        (.defAndArgs [[TV.str "p"]] ["u", "v", "w"]) none
      = .ok (.inlineResult
          [("p", TV.str "u"), ("rest", TV.lst [TV.str "v", TV.str "w"])])
    ∧ argparseRun trivialOracles { inlineRes := true }
        (.defAndArgs [[TV.str "p"]] ["u", "v"]) none
      = .error .tooManyArguments
    ∧ argparseRun trivialOracles { inlineRes := true }
        (.defAndArgs [[TV.str "p"], [TV.str "q?"], [TV.str "r?"]]
          ["u", "v"]) none
      = .ok (.inlineResult [("p", TV.str "u"), ("q", TV.str "v")]) := by
  refine ⟨allocStage_missing, fun a b t => ?_, by rfl, by rfl, by rfl⟩
  have hs : schemaStage { inlineRes := true } [[TV.str "p"], [TV.str "c*"]]
      = .ok (⟨[("p", [("parameter", TV.str ""), ("required", TV.str ""), ("key", TV.str "p")]), ("c", [("parameter", TV.str ""), ("catchall", TV.str ""), ("optional", TV.str ""), ("key", TV.str "c")])], [], ["p", "c"], [], [], ["p", "c"], some "c"⟩ : ArgDef) := by rfl
  have hh : helpTriggered { inlineRes := true } (a :: b :: t) = false := rfl
  simp only [argparseRun, resolveTail, hs, hh, Bool.false_eq_true, if_false]
  exact c3_match_run a b t

/-- Witness for claim C3: the missing-required-parameter conjunct applied to
a concrete state with one required parameter and no tokens at all. -/
theorem c3_positional_allocation_witness :
    allocStage {} ⟨[], [], [], [("q", [("required", TV.str "")])], ["q"]⟩
      [] ["q"] none
    = .error (.missingRequiredParameters ["q"]) :=
  c3_positional_allocation.1 {}
    ⟨[], [], [], [("q", [("required", TV.str "")])], ["q"]⟩ [] ["q"] none
    (by decide)

/-- Claim C4: for every two-element definition whose elements share an
output key and declare no explicit value (and are neither parameters nor
argument takers nor catchalls, carry no prior constraints, and do not both
default), the per-invocation schema processing gives each element a value
equal to its own name and injects mutual forbid constraints; and presenting
the two key-sharing switches `-x` and `-y` of the concrete shared-key
definition in one call fails with the conflicts-with constraint error. -/
theorem c4_shared_key :
    (∀ (g : GlobalOpts) (a b k : String) (oa ob : ODict)
        (al : List (String × String)) (ol sw : List String)
        (uv : List (String × String)) (om : List String)
        (ca : Option String),
      a ≠ b →
      dictGet oa "key" = some (TV.str k) →
      dictGet ob "key" = some (TV.str k) →
      dictGet oa "value" = none →
      dictGet ob "value" = none →
      dictGet oa "parameter" = none →
      dictGet ob "parameter" = none →
      dictGet oa "argument" = none →
      dictGet ob "argument" = none →
      dictGet oa "catchall" = none →
      dictGet ob "catchall" = none →
      dictGet oa "forbid" = none →
      dictGet ob "forbid" = none →
      dictGet oa "require" = none →
      dictGet ob "require" = none →
      dictGet oa "allow" = none →
      dictGet ob "allow" = none →
      dictGet ob "default" = none →
      postCompile g ⟨[(a, oa), (b, ob)], al, ol, sw, uv, om, ca⟩
        = .ok ⟨[(a, dictPut (dictPut oa "value" (TV.str a)) "forbid" (TV.lst [TV.str b])), (b, dictPut (dictPut ob "forbid" (TV.lst [TV.str a])) "value" (TV.str b))], al, ol, sw, uv, om, ca⟩)
    ∧ argparseRun trivialOracles { inlineRes := true }
        (.defAndArgs [[TV.str "-x", TV.str "-key", TV.str "shared"],
          [TV.str "-y", TV.str "-key", TV.str "shared"]] ["-x", "-y"]) none
      = .error (.conflictsWith "-x" "-y") :=
  ⟨postCompile_sharedKey_pair, by rfl⟩

/-- Witness for claim C4: the shared-key rewrite applied to two concrete
switch elements `x` and `y` sharing the output key `shared`. -/
theorem c4_shared_key_witness :
    postCompile {}
      ⟨[("x", [("key", TV.str "shared"), ("switch", TV.str "")]),
        ("y", [("key", TV.str "shared"), ("switch", TV.str "")])],
       [], [], ["-x", "-y"], [], ["x", "y"], none⟩
    = .ok ⟨[("x", dictPut (dictPut [("key", TV.str "shared"),
              ("switch", TV.str "")] "value" (TV.str "x")) "forbid"
              (TV.lst [TV.str "y"])),
            ("y", dictPut (dictPut [("key", TV.str "shared"),
              ("switch", TV.str "")] "forbid" (TV.lst [TV.str "x"]))
              "value" (TV.str "y"))],
           [], [], ["-x", "-y"], [], ["x", "y"], none⟩ :=
  c4_shared_key.1 {} "x" "y" "shared"
    [("key", TV.str "shared"), ("switch", TV.str "")]
    [("key", TV.str "shared"), ("switch", TV.str "")]
    [] [] ["-x", "-y"] [] ["x", "y"] none
    (by decide) rfl rfl rfl rfl rfl rfl rfl rfl rfl rfl rfl rfl rfl rfl
    rfl rfl rfl

end Argparse
